import Mathlib

/-!
Shallow embedding of `deepspeed/runtime/fp16/onebit/onebitlamb.py`
(class `OnebitLamb`), the 1-bit Lamb optimizer.

Modelling conventions:
* Tensors are `List ℚ`; machine floats are modelled by exact rationals.
* The tensor library's square root (`torch.sqrt`, `np.sqrt`, `torch.norm`)
  is an external collaborator of the program; it is passed in as an
  abstract function `sq : ℚ → ℚ`, so every theorem below holds for any
  square-root implementation.  `torch.norm v = sqrt (Σ v_i^2)` is modelled
  as `sq (sumsq v)`.
* The compressed all-reduce transport (`comm_backend_handle.compressed_allreduce`)
  is an external contract; it is passed in as an abstract in-place update
  `ar : buffer → worker_error → server_error → (buffer', we', se')`.
* Python exceptions are modelled by a trailing `Option StepErr`; since the
  Python object keeps all mutations performed before the raise, `step`
  returns the partially mutated optimizer together with the error.
* In-place aliasing between the fused flat buffer and the per-parameter
  momentum views is modelled by materialising the flat buffer from the
  views at the reduction point (`gatherFlat`) and scattering the reduced
  buffer back into the views (`scatterStage`); this is observationally
  equivalent because every intermediate mutation goes through the views.
* Rational division by zero yields 0 (Lean convention); all claims below
  only exercise inputs where the Python code does not divide by zero.
-/

namespace OnebitLamb

abbrev Vec := List ℚ

/-- Elementwise addition (`a.add_(b)`). -/
def vadd (a b : Vec) : Vec := List.zipWith (· + ·) a b

/-- Elementwise subtraction (`a - b`). -/
def vsub (a b : Vec) : Vec := List.zipWith (· - ·) a b

/-- Elementwise product (`a * b`). -/
def vmul (a b : Vec) : Vec := List.zipWith (· * ·) a b

/-- Elementwise quotient (`a / b`). -/
def vdivV (a b : Vec) : Vec := List.zipWith (· / ·) a b

/-- Scalar multiple (`c * v`, also `v.mul_(c)`). -/
def smul (c : ℚ) (v : Vec) : Vec := v.map (fun x => c * x)

/-- Add a scalar to every element (`v + eps`). -/
def addConst (v : Vec) (c : ℚ) : Vec := v.map (fun x => x + c)

/-- `v.pow(2).sum()`. -/
def sumsq (v : Vec) : ℚ := (v.map (fun x => x * x)).sum

/-- `torch.zeros_like(v)`. -/
def zerosLike (v : Vec) : Vec := List.replicate v.length 0

/-- `t.max().item()` of a tensor; torch requires the tensor to be nonempty,
the `[]` case is an unused convention value. -/
def listMax : Vec → ℚ
  | [] => 0
  | x :: xs => xs.foldl max x

/-- `self.divider = int(self.size * 8 / np.gcd(self.size, 8))`
(`onebitlamb.py:119`); exact because `gcd size 8` divides `size * 8`. -/
def divider (size : ℕ) : ℕ := size * 8 / Nat.gcd size 8

/-- The factor clamp of `OnebitLamb.step`, `onebitlamb.py:359-366`:
clamp to `[factor_min, factor_max]`, then rate-limit against
`last_factor * (1 ± factor_threshold)`, in exactly the source's order. -/
def clampFactor (factor_max factor_min factor_threshold last_factor factor : ℚ) : ℚ :=
  let f1 := if factor > factor_max then factor_max else factor
  let f2 := if f1 < factor_min then factor_min else f1
  let f3 := if f2 > last_factor * (1 + factor_threshold) then
      last_factor * (1 + factor_threshold) else f2
  if f3 < last_factor * (1 - factor_threshold) then
      last_factor * (1 - factor_threshold) else f3

/-- The sequence of values stored into `state['last_factor']` over a run of
compression steps, starting from the stored `last_factor` `lf` and feeding
the raw (pre-clamp) factors `raws` one at a time through `clampFactor`. -/
def lastFactorTrace (factor_max factor_min factor_threshold : ℚ) :
    ℚ → List ℚ → List ℚ
  | _, [] => []
  | lf, r :: rs =>
    let f := clampFactor factor_max factor_min factor_threshold lf r
    f :: lastFactorTrace factor_max factor_min factor_threshold f rs

/-- Per-parameter optimizer state `self.state[p]` (`onebitlamb.py:198-206`). -/
structure ParamState where
  step : ℕ
  lamb_coeff_freeze : ℚ
  last_factor : ℚ
  exp_avg : Vec
  exp_avg_sq : Vec
  exp_avg_sq_back : Vec
deriving DecidableEq, Inhabited

/-- A gradient tensor together with its `is_sparse` flag. -/
structure GradIn where
  vals : Vec
  is_sparse : Bool
deriving DecidableEq

/-- A parameter: its data tensor and its (lazily created) optimizer state. -/
structure PParam where
  data : Vec
  st : Option ParamState
deriving DecidableEq, Inhabited

/-- A parameter group with its hyperparameters (`defaults` plus the optional
`exp_avg_mask`). `bias_correction` is read but unused by the source's `step`. -/
structure PGroup where
  params : List PParam
  lr : ℚ
  beta1 : ℚ
  beta2 : ℚ
  eps : ℚ
  weight_decay : ℚ
  max_coeff : ℚ
  min_coeff : ℚ
  bias_correction : Bool
  exp_avg_mask : Option Vec
deriving DecidableEq, Inhabited

/-- The optimizer object. Field `initialized` models the source's
`self.initialize` flag (renamed only for Lean-side hygiene);
`enable_backward_allreduce` models `self.deepspeed.enable_backward_allreduce`. -/
structure Opt where
  groups : List PGroup
  lamb_freeze_key : Bool
  initialized : Bool
  freeze_step : ℕ
  coeff_beta : ℚ
  factor_max : ℚ
  factor_min : ℚ
  factor_threshold : ℚ
  size : ℕ
  scaling_coeffs : List (List ℚ)
  exp_avg_flat : List Vec
  dummy_vals : Option Vec
  corrected_tensor_sizes : List ℕ
  server_chunk_sizes : List ℕ
  worker_errors : List Vec
  server_errors : List Vec
  lamb_coeffs : List ℚ
  enable_backward_allreduce : Bool
deriving DecidableEq

/-- Python exceptions raised by `step` / `load_state_dict`:
sparse-gradient `RuntimeError`, `KeyError` on a missing state entry,
`IndexError` on list indexing, `UnboundLocalError` on the leaked loop
variable `state`. -/
inductive StepErr
  | sparseGrad
  | missingState
  | indexError
  | nameError
deriving DecidableEq

/-- Events observed during a single `step` call: whether the transient
worker/server error buffers of the non-initialized path
(`onebitlamb.py:293-314`) were allocated. -/
structure StepLog where
  tmpErrAlloc : Bool
deriving DecidableEq

/-- The momentum (`exp_avg`) tensors of a parameter list; `none` if some
parameter has no state yet (in Python, `self.state[p]['exp_avg']` raises
`KeyError` on the defaultdict's fresh empty entry). -/
def paramsMomenta : List PParam → Option (List Vec)
  | [] => some []
  | p :: ps =>
    match p.st, paramsMomenta ps with
    | some s, some vs => some (s.exp_avg :: vs)
    | _, _ => none

/-- The momentum tensors of every parameter, grouped. -/
def groupsMomenta : List PGroup → Option (List (List Vec))
  | [] => some []
  | g :: gs =>
    match paramsMomenta g.params, groupsMomenta gs with
    | some vs, some vss => some (vs :: vss)
    | _, _ => none

/-- `(torch.norm(exp_avg) / np.sqrt(torch.numel(exp_avg))).item()`
(`onebitlamb.py:169-170`). -/
def momentumScale (sq : ℚ → ℚ) (v : Vec) : ℚ :=
  sq (sumsq v) / sq ((v.length : ℚ))

/-- `united_scale = sum([sum(x) for x in momentum_scales]) / sum([len(x) ...])`
(`onebitlamb.py:173-174`). -/
def unitedScale (ms : List (List ℚ)) : ℚ :=
  (ms.map List.sum).sum / (((ms.map List.length).sum : ℕ) : ℚ)

/-- The scaling-coefficient computation of `onebitlamb.py:163-179`,
from the per-group momentum tensors. -/
def computeScalingCoeffs (sq : ℚ → ℚ) (momenta : List (List Vec)) : List (List ℚ) :=
  let ms := momenta.map (fun vs => vs.map (momentumScale sq))
  let u := unitedScale ms
  ms.map (fun x => x.map (fun m => u / m))

/-- Lines 158-179 of `step`: when in the compression phase, snapshot every
parameter's momentum (`exp_avg_last_step`) and, if `scaling_coeffs` is
empty, compute it.  Returns the snapshot (empty when not in compression). -/
def scalingStage (sq : ℚ → ℚ) (o : Opt) : Opt × List (List Vec) × Option StepErr :=
  if o.lamb_freeze_key then
    match groupsMomenta o.groups with
    | none => (o, [], some .missingState)
    | some mom =>
      if o.scaling_coeffs = [] then
        ({ o with scaling_coeffs := computeScalingCoeffs sq mom }, mom, none)
      else (o, mom, none)
  else (o, [], none)

/-- The body of the main per-parameter loop of `step`
(`onebitlamb.py:187-250`) for one parameter.  Returns the updated
parameter, the updated `lamb_freeze_key`, the `lamb_coeff`s appended,
the parameter's post-increment step counter if it was processed
(the value the leaked local `state` exposes afterwards), and an error. -/
def stepParam (sq : ℚ → ℚ) (initialized : Bool) (freeze_step : ℕ) (coeff_beta : ℚ)
    (g : PGroup) (freeze : Bool) (scal : Option ℚ) (p : PParam) (gr : Option GradIn) :
    PParam × Bool × List ℚ × Option ℕ × Option StepErr :=
  match gr with
  | none => (p, freeze, [], none, none)
  | some gin =>
    if gin.is_sparse then (p, freeze, [], none, some .sparseGrad)
    else
      -- state initialization (lines 198-206)
      let st0 := p.st.getD
        { step := 0, lamb_coeff_freeze := 0, last_factor := 1,
          exp_avg := zerosLike p.data, exp_avg_sq := zerosLike p.data,
          exp_avg_sq_back := zerosLike p.data }
      -- lines 208-209
      let freeze1 := if initialized then freeze else true
      -- line 216
      let st1 := { st0 with step := st0.step + 1 }
      if freeze1 = false then
        -- warmup stage (lines 218-243)
        let ea := vadd (smul g.beta1 st1.exp_avg) (smul (1 - g.beta1) gin.vals)
        let easq := vadd (smul g.beta2 st1.exp_avg_sq)
          (smul (1 - g.beta2) (vmul gin.vals gin.vals))
        let back := if st1.step = freeze_step then easq else st1.exp_avg_sq_back
        if initialized then
          let weight_norm := sq (sumsq p.data)
          let upd0 := vdivV ea (addConst (easq.map sq) g.eps)
          let upd := if g.weight_decay > 0 then vadd upd0 (smul g.weight_decay p.data)
            else upd0
          let update_norm := sq (sumsq upd)
          let lc :=
            if weight_norm ≠ 0 ∧ update_norm ≠ 0 then
              let a := weight_norm / update_norm
              let a1 := if a > g.max_coeff then g.max_coeff else a
              if a1 < g.min_coeff then g.min_coeff else a1
            else 1
          let lcf := if lc ≠ 1 then
              coeff_beta * st1.lamb_coeff_freeze + (1 - coeff_beta) * lc
            else st1.lamb_coeff_freeze
          let data1 := vsub p.data (smul (g.lr * lc) upd)
          let st2 := { st1 with exp_avg := ea, exp_avg_sq := easq, exp_avg_sq_back := back, lamb_coeff_freeze := lcf }
          ({ data := data1, st := some st2 }, freeze1, [lc], some st1.step, none)
        else
          let st2 := { st1 with exp_avg := ea, exp_avg_sq := easq, exp_avg_sq_back := back }
          ({ p with st := some st2 }, freeze1, [], some st1.step, none)
      else
        -- compression stage local momentum update (lines 244-250)
        if initialized then
          let ea := vadd (smul g.beta1 st1.exp_avg) (smul (1 - g.beta1) gin.vals)
          match scal with
          | none =>
            ({ p with st := some { st1 with exp_avg := ea } },
             freeze1, [], some st1.step, some .indexError)
          | some c =>
            ({ p with st := some { st1 with exp_avg := smul c ea } },
             freeze1, [], some st1.step, none)
        else
          ({ p with st := some st1 }, freeze1, [], some st1.step, none)

/-- The inner `for j, (p, grad) in enumerate(zip(...))` loop; `scals` is the
group's `self.scaling_coeffs[i]` (`none` when that group index is missing),
consumed positionally. -/
def loopParams (sq : ℚ → ℚ) (initialized : Bool) (freeze_step : ℕ) (coeff_beta : ℚ)
    (g : PGroup) :
    Bool → Option (List ℚ) → List PParam → List (Option GradIn) →
    List PParam × Bool × List ℚ × Option ℕ × Option StepErr
  | freeze, _, [], _ => ([], freeze, [], none, none)
  | freeze, scals, p :: ps, gl =>
    let r := stepParam sq initialized freeze_step coeff_beta g freeze
      (scals.bind List.head?) p (gl.headD none)
    match r.2.2.2.2 with
    | some e => (r.1 :: ps, r.2.1, r.2.2.1, r.2.2.2.1, some e)
    | none =>
      let rest := loopParams sq initialized freeze_step coeff_beta g
        r.2.1 (scals.map List.tail) ps gl.tail
      (r.1 :: rest.1, rest.2.1, r.2.2.1 ++ rest.2.2.1,
       (match rest.2.2.2.1 with | some s => some s | none => r.2.2.2.1),
       rest.2.2.2.2)

/-- The outer `for i, (group, grads_this_group)` loop of lines 181-250. -/
def loopGroups (sq : ℚ → ℚ) (initialized : Bool) (freeze_step : ℕ) (coeff_beta : ℚ) :
    Bool → List (List ℚ) → List PGroup → List (List (Option GradIn)) →
    List PGroup × Bool × List ℚ × Option ℕ × Option StepErr
  | freeze, _, [], _ => ([], freeze, [], none, none)
  | freeze, scalss, g :: gs, ggl =>
    let r := loopParams sq initialized freeze_step coeff_beta g freeze
      scalss.head? g.params (ggl.headD [])
    let g1 := { g with params := r.1 }
    match r.2.2.2.2 with
    | some e => (g1 :: gs, r.2.1, r.2.2.1, r.2.2.2.1, some e)
    | none =>
      let rest := loopGroups sq initialized freeze_step coeff_beta
        r.2.1 scalss.tail gs ggl.tail
      (g1 :: rest.1, rest.2.1, r.2.2.1 ++ rest.2.2.1,
       (match rest.2.2.2.1 with | some s => some s | none => r.2.2.2.1),
       rest.2.2.2.2)

/-- Lines 181-250 of `step` as a whole: the main loop over groups and
parameters.  The second component is the step counter of the last
parameter processed with a gradient (the value later read from the
leaked loop variable `state` at line 384). -/
def mainLoopStage (sq : ℚ → ℚ) (o : Opt) (gs : List (List (Option GradIn))) :
    Opt × Option ℕ × Option StepErr :=
  let r := loopGroups sq o.initialized o.freeze_step o.coeff_beta
    o.lamb_freeze_key o.scaling_coeffs o.groups gs
  ({ o with groups := r.1, lamb_freeze_key := r.2.1,
            lamb_coeffs := o.lamb_coeffs ++ r.2.2.1 },
   r.2.2.2.1, r.2.2.2.2)

/-- Total element count `tensor_size` (`onebitlamb.py:259`). -/
def totalNumel (gs : List PGroup) : ℕ :=
  (gs.map (fun g => (g.params.map (fun p => p.data.length)).sum)).sum

/-- Lines 252-277: one-time fused-momentum initialization.  Flattening and
the subsequent rebinding of each momentum to its view of the flat buffer
preserve all values, so `groups` is unchanged; the zero padding is kept in
`dummy_vals` (the source's `self.dummy_exp_avg[0]`). -/
def fusedInitStage (o : Opt) : Opt × Option StepErr :=
  if o.exp_avg_flat = [] then
    match groupsMomenta o.groups with
    | none => (o, some .missingState)
    | some mom =>
      let tensor_size := totalNumel o.groups
      let m := o.size * divider o.size
      if tensor_size % m ≠ 0 then
        let difference := m - tensor_size % m
        let corrected := tensor_size + difference
        ({ o with
            exp_avg_flat := o.exp_avg_flat ++
              [mom.flatten.flatten ++ List.replicate difference (0 : ℚ)],
            dummy_vals := some (List.replicate difference (0 : ℚ)),
            corrected_tensor_sizes := o.corrected_tensor_sizes ++ [corrected],
            server_chunk_sizes := o.server_chunk_sizes ++ [corrected / o.size] },
         none)
      else
        ({ o with
            exp_avg_flat := o.exp_avg_flat ++ [mom.flatten.flatten],
            corrected_tensor_sizes := o.corrected_tensor_sizes ++ [tensor_size],
            server_chunk_sizes := o.server_chunk_sizes ++ [tensor_size / o.size] },
         none)
  else (o, none)

/-- Lines 279-288: allocate the persistent worker/server error buffers once
the optimizer is initialized.  `corrected_tensor_sizes` and
`server_chunk_sizes` always run parallel to `exp_avg_flat` (all are
appended to only by `fusedInitStage`), so mapping over them models the
source's indexed loop over `range(len(self.exp_avg_flat))`. -/
def errorAllocStage (o : Opt) : Opt :=
  if o.initialized ∧ o.worker_errors = [] then
    { o with
        worker_errors := o.corrected_tensor_sizes.map
          (fun c => List.replicate c (0 : ℚ)),
        server_errors := o.server_chunk_sizes.map
          (fun c => List.replicate c (0 : ℚ)) }
  else o

/-- The current value of the fused flat buffer: the concatenation of every
momentum view followed by the dummy padding view. -/
def gatherFlat (o : Opt) : Vec :=
  ((o.groups.map (fun g => g.params.map
      (fun p => (p.st.map ParamState.exp_avg).getD []))).flatten).flatten ++
    o.dummy_vals.getD []

/-- Scatter a reduced flat buffer back through the per-parameter momentum
views, threading the running offset. -/
def scatterParams (flat : Vec) : ℕ → List PParam → List PParam × ℕ
  | off, [] => ([], off)
  | off, p :: ps =>
    match p.st with
    | some s =>
      let len := s.exp_avg.length
      let rest := scatterParams flat (off + len) ps
      ({ p with st := some { s with exp_avg := (flat.drop off).take len } } :: rest.1,
       rest.2)
    | none =>
      let rest := scatterParams flat off ps
      (p :: rest.1, rest.2)

/-- Scatter over all groups. -/
def scatterGroups (flat : Vec) : ℕ → List PGroup → List PGroup × ℕ
  | off, [] => ([], off)
  | off, g :: gs =>
    let r := scatterParams flat off g.params
    let rest := scatterGroups flat r.2 gs
    ({ g with params := r.1 } :: rest.1, rest.2)

/-- Write the reduced flat buffer back through every momentum view and the
dummy padding view (the in-place effect of mutating `self.exp_avg_flat[0]`,
which all the views alias). -/
def scatterStage (o : Opt) (flat : Vec) : Opt :=
  let r := scatterGroups flat 0 o.groups
  { o with groups := r.1,
           dummy_vals := o.dummy_vals.map (fun d => (flat.drop r.2).take d.length),
           exp_avg_flat := [flat] }

/-- Lines 290-320: the compressed all-reduce.  Only runs in the compression
phase with `size > 1`; in the bootstrap (non-initialized) path the error
buffers are allocated transiently, used, and popped. -/
def allreduceStage (ar : Vec → Vec → Vec → Vec × Vec × Vec) (o : Opt) :
    Opt × StepLog :=
  if o.lamb_freeze_key ∧ 1 < o.size then
    if o.exp_avg_flat = [] then (o, ⟨false⟩)
    else
      if o.initialized = false then
        let we := o.worker_errors ++
          [List.replicate (o.corrected_tensor_sizes.headD 0) (0 : ℚ)]
        let se := o.server_errors ++
          [List.replicate (o.server_chunk_sizes.headD 0) (0 : ℚ)]
        let r := ar (gatherFlat o) (we.headD []) (se.headD [])
        (scatterStage { o with worker_errors := [], server_errors := [] } r.1,
         ⟨true⟩)
      else
        let r := ar (gatherFlat o) (o.worker_errors.headD [])
          (o.server_errors.headD [])
        (scatterStage
          { o with worker_errors := o.worker_errors.set 0 r.2.1,
                   server_errors := o.server_errors.set 0 r.2.2 } r.1,
         ⟨false⟩)
  else (o, ⟨false⟩)

/-- The per-parameter body of the compression-phase update loop
(`onebitlamb.py:326-371`).  `scal` is `self.scaling_coeffs[i][j]`,
`ol` is `exp_avg_last_step[i][j]`. -/
def updParam (sq : ℚ → ℚ) (factor_max factor_min factor_threshold : ℚ)
    (g : PGroup) (scal : Option ℚ) (ol : Option Vec) (p : PParam) :
    PParam × Option ℚ × Option StepErr :=
  match p.st with
  | none => (p, none, some .missingState)
  | some st =>
    match scal with
    | none => (p, none, some .indexError)
    | some c =>
      let ea1 := st.exp_avg.map (fun x => x / c)
      let ea2 := match g.exp_avg_mask with
        | some m => vmul ea1 m
        | none => ea1
      match ol with
      | none => ({ p with st := some { st with exp_avg := ea2 } },
                 none, some .indexError)
      | some olv =>
        let gr := (vsub ea2 (smul g.beta1 olv)).map (fun x => x / (1 - g.beta1))
        let back := vadd (smul g.beta2 st.exp_avg_sq_back)
          (smul (1 - g.beta2) (vmul gr gr))
        let denom := addConst (st.exp_avg_sq.map sq) g.eps
        let prelim := vdivV ea2 denom
        let upd := if g.weight_decay > 0 then vadd prelim (smul g.weight_decay p.data)
          else prelim
        let update_norm := sq (sumsq upd)
        let denom_real := addConst (back.map sq) g.eps
        let rawf := listMax (vdivV denom denom_real)
        let rawf2 := if g.weight_decay > 0 then
            let ur := min 1 (sq (sumsq prelim) / update_norm)
            rawf * ur + (1 - ur)
          else rawf
        let f := clampFactor factor_max factor_min factor_threshold st.last_factor rawf2
        let lc := st.lamb_coeff_freeze * f
        let data1 := vsub p.data (smul (g.lr * lc) upd)
        let st1 := { st with exp_avg := ea2, exp_avg_sq_back := back, last_factor := f }
        ({ data := data1, st := some st1 }, some lc, none)

/-- The inner parameter loop of the update loop (all parameters, gradient
or not). -/
def updParams (sq : ℚ → ℚ) (factor_max factor_min factor_threshold : ℚ)
    (g : PGroup) :
    Option (List ℚ) → Option (List Vec) → List PParam →
    List PParam × List ℚ × Option StepErr
  | _, _, [] => ([], [], none)
  | scals, ols, p :: ps =>
    let r := updParam sq factor_max factor_min factor_threshold g
      (scals.bind List.head?) (ols.bind List.head?) p
    match r.2.2 with
    | some e => (r.1 :: ps, (r.2.1.map (fun c => [c])).getD [], some e)
    | none =>
      let rest := updParams sq factor_max factor_min factor_threshold g
        (scals.map List.tail) (ols.map List.tail) ps
      (r.1 :: rest.1, (r.2.1.map (fun c => [c])).getD [] ++ rest.2.1, rest.2.2)

/-- The outer group loop of the update loop (`onebitlamb.py:323-371`). -/
def updGroups (sq : ℚ → ℚ) (factor_max factor_min factor_threshold : ℚ) :
    List (List ℚ) → List (List Vec) → List PGroup →
    List PGroup × List ℚ × Option StepErr
  | _, _, [] => ([], [], none)
  | scalss, olss, g :: gs =>
    let r := updParams sq factor_max factor_min factor_threshold g
      scalss.head? olss.head? g.params
    let g1 := { g with params := r.1 }
    match r.2.2 with
    | some e => (g1 :: gs, r.2.1, some e)
    | none =>
      let rest := updGroups sq factor_max factor_min factor_threshold
        scalss.tail olss.tail gs
      (g1 :: rest.1, r.2.1 ++ rest.2.1, rest.2.2)

/-- Lines 322-372: the compression-phase trust-ratio update loop. -/
def updateLoopStage (sq : ℚ → ℚ) (ols : List (List Vec)) (o : Opt) :
    Opt × Option StepErr :=
  if o.lamb_freeze_key ∧ o.initialized then
    let r := updGroups sq o.factor_max o.factor_min o.factor_threshold
      o.scaling_coeffs ols o.groups
    ({ o with groups := r.1, lamb_coeffs := o.lamb_coeffs ++ r.2.1 }, r.2.2)
  else (o, none)

/-- Lines 375-386: bootstrap commit and the phase-transition check.  The
check reads the leaked loop variable `state`; `lastStp` is its step
counter, `none` when no parameter was processed with a gradient
(an `UnboundLocalError` in Python). -/
def finalizeStage (o : Opt) (lastStp : Option ℕ) : Opt × Option StepErr :=
  if o.initialized = false then
    ({ o with lamb_freeze_key := false, initialized := true }, none)
  else
    if o.lamb_freeze_key = false then
      match lastStp with
      | none => (o, some .nameError)
      | some s =>
        if o.freeze_step ≤ s then
          ({ o with lamb_freeze_key := true, enable_backward_allreduce := false },
           none)
        else (o, none)
    else (o, none)

/-- `OnebitLamb.step` (`onebitlamb.py:131-388`), parameterized by the square
root `sq` and the compressed all-reduce `ar`.  Returns the (possibly
partially) mutated optimizer, the event log, and the raised exception if
any. -/
def step (sq : ℚ → ℚ) (ar : Vec → Vec → Vec → Vec × Vec × Vec)
    (o : Opt) (gs : List (List (Option GradIn))) : Opt × StepLog × Option StepErr :=
  -- line 156: del self.lamb_coeffs[:]
  let o0 := { o with lamb_coeffs := [] }
  match scalingStage sq o0 with
  | (o1, _, some e) => (o1, ⟨false⟩, some e)
  | (o1, ols, none) =>
    match mainLoopStage sq o1 gs with
    | (o2, _, some e) => (o2, ⟨false⟩, some e)
    | (o2, lastStp, none) =>
      match fusedInitStage o2 with
      | (o3, some e) => (o3, ⟨false⟩, some e)
      | (o3, none) =>
        let o4 := errorAllocStage o3
        let r5 := allreduceStage ar o4
        match updateLoopStage sq ols r5.1 with
        | (o6, some e) => (o6, r5.2, some e)
        | (o6, none) =>
          let r7 := finalizeStage o6 lastStp
          (r7.1, r5.2, r7.2)

/-- `torch._utils._flatten_dense_tensors` on 1-d tensors: concatenation. -/
def flattenDense (vs : List Vec) : Vec := vs.flatten

/-- `torch._utils._unflatten_dense_tensors`: split a flat buffer back into
pieces shaped like `shapes`. -/
def unflattenDense : Vec → List Vec → List Vec
  | _, [] => []
  | flat, v :: vs => flat.take v.length :: unflattenDense (flat.drop v.length) vs

/-- Start offset of the `j`-th tensor inside the flat buffer. -/
def offsetOf (shapes : List Vec) (j : ℕ) : ℕ :=
  ((shapes.take j).map List.length).sum

/-- The checkpoint produced by `OnebitLamb.state_dict`
(`onebitlamb.py:390-398`): the base `torch.optim.Optimizer` state (the
per-parameter states, positionally, and each group's options — of which
only `exp_avg_mask` is relevant here; the remaining options are identical
across save/load in every claim) plus the three 1-bit Lamb extras. -/
structure Ckpt where
  pstates : List (List (Option ParamState))
  gmasks : List (Option Vec)
  worker_errors : List Vec
  server_errors : List Vec
  scaling_coeffs : List (List ℚ)
deriving DecidableEq

/-- `OnebitLamb.state_dict` (`onebitlamb.py:390-398`). -/
def state_dict (o : Opt) : Ckpt :=
  { pstates := o.groups.map (fun g => g.params.map PParam.st),
    gmasks := o.groups.map PGroup.exp_avg_mask,
    worker_errors := o.worker_errors,
    server_errors := o.server_errors,
    scaling_coeffs := o.scaling_coeffs }

/-- The base `torch.optim.Optimizer.load_state_dict` effect on one group
(torch 1.8, external collaborator): the saved group's options replace the
live group's options (keeping the live `params`), and per-parameter state
is rebound positionally from the checkpoint. -/
def baseLoadGroup (g : PGroup) (sts : List (Option ParamState)) (m : Option Vec) :
    PGroup :=
  { g with exp_avg_mask := m,
           params := g.params.mapIdx (fun j p => { p with st := sts.getD j none }) }

/-- `super().load_state_dict(state_dict)` over all groups. -/
def baseLoadGroups : List PGroup → List (List (Option ParamState)) →
    List (Option Vec) → List PGroup
  | [], _, _ => []
  | g :: gs, sts, ms =>
    baseLoadGroup g (sts.headD []) (ms.headD none) ::
      baseLoadGroups gs sts.tail ms.tail

/-- Reset `lamb_coeff_freeze`/`last_factor` of every existing state entry
(`onebitlamb.py:445-448`; for a parameter with no state the Python
defaultdict would create a degenerate two-field entry — no claim below
exercises that corner, every parameter has a state there). -/
def resetFreezeFields (gs : List PGroup) : List PGroup :=
  gs.map (fun g =>
    { g with params := g.params.map (fun p =>
        match p.st with
        | some s => { p with st := some { s with lamb_coeff_freeze := 0, last_factor := 1 } }
        | none => p) })

/-- `OnebitLamb.load_state_dict` (`onebitlamb.py:400-448`).  Device moves
(`.to(device=...)`) are value-preserving and are omitted. -/
def load_state_dict (o : Opt) (ck : Ckpt) : Opt × Option StepErr :=
  -- lines 404-407: remember which live groups carry a mask
  let liveMasks := o.groups.map PGroup.exp_avg_mask
  -- line 408: super().load_state_dict(state_dict)
  let groups1 := baseLoadGroups o.groups ck.pstates ck.gmasks
  -- lines 413-414: restore the live masks (only for groups that had one)
  let groups2 := List.zipWith
    (fun g lm => match lm with
      | some v => { g with exp_avg_mask := some v }
      | none => g)
    groups1 liveMasks
  -- lines 415-418: reset the fused-momentum bookkeeping
  let o1 := { o with groups := groups2, exp_avg_flat := [], dummy_vals := none, corrected_tensor_sizes := [], server_chunk_sizes := [] }
  -- line 419: self.state[self.param_groups[0]['params'][0]]['step']
  match o1.groups with
  | [] => (o1, some .indexError)
  | g0 :: _ =>
    match g0.params with
    | [] => (o1, some .indexError)
    | p0 :: _ =>
      match p0.st with
      | none => (o1, some .missingState)
      | some s0 =>
        if o.freeze_step ≤ s0.step then
          -- lines 420-433: compression stage continues
          ({ o1 with worker_errors := ck.worker_errors,
                     server_errors := ck.server_errors,
                     scaling_coeffs := ck.scaling_coeffs }, none)
        else
          -- lines 434-448: warmup stage starts/continues
          let o2 := if o1.lamb_freeze_key then
              { o1 with lamb_freeze_key := false, enable_backward_allreduce := true }
            else o1
          ({ o2 with worker_errors := [], server_errors := [],
                     scaling_coeffs := [],
                     groups := resetFreezeFields o2.groups }, none)

/-! ## Concrete scenario used by the counterexamples and witnesses

A two-parameter optimizer on one group, `world_size = 1`, with small
rational hyperparameters.  `sqLin` is a concrete instantiation of the
abstract square-root collaborator and `arKeep` a transport that leaves
its buffers unchanged (with `size = 1` it is never invoked anyway). -/

def sqLin : ℚ → ℚ := fun x => x

def arKeep : Vec → Vec → Vec → Vec × Vec × Vec := fun b w s => (b, w, s)

def paramW : PParam := { data := [2], st := none }

def groupW : PGroup :=
  { params := [paramW, paramW], lr := 1, beta1 := 1/2, beta2 := 1/2, eps := 1,
    weight_decay := 0, max_coeff := 10, min_coeff := 1/100,
    bias_correction := true, exp_avg_mask := none }

def optBase (fs : ℕ) : Opt :=
  { groups := [groupW], lamb_freeze_key := false, initialized := false,
    freeze_step := fs, coeff_beta := 1/2, factor_max := 9/2, factor_min := 1/2,
    factor_threshold := 1/10, size := 1, scaling_coeffs := [],
    exp_avg_flat := [], dummy_vals := none, corrected_tensor_sizes := [],
    server_chunk_sizes := [], worker_errors := [], server_errors := [],
    lamb_coeffs := [], enable_backward_allreduce := true }

/-- Both parameters receive the dense gradient `[1]`. -/
def gradsBoth : List (List (Option GradIn)) := [[some ⟨[1], false⟩, some ⟨[1], false⟩]]

/-- Only the first parameter receives a gradient. -/
def gradsAOnly : List (List (Option GradIn)) := [[some ⟨[1], false⟩, none]]

/-- The second parameter's gradient is sparse. -/
def gradsSparse : List (List (Option GradIn)) := [[some ⟨[1], false⟩, some ⟨[1], true⟩]]

/-- Bootstrap step of the `freeze_step = 3` run. -/
def runC2a := step sqLin arKeep (optBase 3) gradsBoth

/-- Second step: only the first parameter has a gradient, so its counter
runs ahead of the second parameter's. -/
def runC2b := step sqLin arKeep runC2a.1 gradsAOnly

/-- Third step: both parameters have gradients; the first parameter's
counter reaches `freeze_step = 3`, the second's (the last processed)
is still 2. -/
def runC2c := step sqLin arKeep runC2b.1 gradsBoth

/-- Save-then-load round trip on the state reached by `runC2c`. -/
def runC7 := load_state_dict runC2c.1 (state_dict runC2c.1)

/-- A long-warmup optimizer after its bootstrap step. -/
def optWarm : Opt := (step sqLin arKeep (optBase 100) gradsBoth).1

/-- A warmup step in which the second parameter's gradient is sparse. -/
def runC3 := step sqLin arKeep optWarm gradsSparse

/-- The bootstrap step itself (`freeze_step = 100`). -/
def runC8 := step sqLin arKeep (optBase 100) gradsBoth

/-- `freeze_step = 1` run: bootstrap, then the first real step, whose end
triggers the WARMUP → COMPRESSION transition. -/
def optC10a : Opt := (step sqLin arKeep (optBase 1) gradsBoth).1

/-- After this step the optimizer is in the compression phase. -/
def optC10b : Opt := (step sqLin arKeep optC10a gradsBoth).1

/-- A compression-phase step in which the second parameter has no
gradient. -/
def runC10 := step sqLin arKeep optC10b gradsAOnly

/-- A live optimizer whose single group carries no `exp_avg_mask`. -/
def stC9 : ParamState :=
  { step := 0, lamb_coeff_freeze := 0, last_factor := 1, exp_avg := [0], exp_avg_sq := [0], exp_avg_sq_back := [0] }

def optC9 : Opt :=
  { optBase 5 with groups := [{ groupW with params := [{ paramW with st := some stC9 }] }] }

/-- A checkpoint whose group carries an `exp_avg_mask`. -/
def ckC9 : Ckpt :=
  { pstates := [[some stC9]], gmasks := [some [1]], worker_errors := [], server_errors := [], scaling_coeffs := [] }

/-- Loading `ckC9` into `optC9`. -/
def runC9 := load_state_dict optC9 ckC9

/-- The step counter of the last parameter processed with a gradient
during the main loop of a `step` call — the value the leaked Python loop
variable `state` exposes at the phase-transition check (line 384). -/
def leakedCounter (sq : ℚ → ℚ) (o : Opt) (gs : List (List (Option GradIn))) :
    Option ℕ :=
  (mainLoopStage sq { o with lamb_coeffs := [] } gs).2.1

/-- The length of the zero pad the fused-buffer initialization appends:
the distance from the total element count up to the next multiple of
`size * divider size` (0 when it is already a multiple) — the source's
`difference` (`onebitlamb.py:262`). -/
def padLen (size ts : ℕ) : ℕ :=
  (size * divider size - ts % (size * divider size)) % (size * divider size)

/-! ## Theorems -/

/-- One application of the factor clamp stays inside both intervals and
preserves membership in `[factor_min, factor_max]`. -/
theorem clampFactor_bounds (fmax fmin t lf r : ℚ) (h0 : 0 ≤ fmin) (ht : 0 ≤ t)
    (hl : fmin ≤ lf) (hu : lf ≤ fmax) :
    fmin ≤ clampFactor fmax fmin t lf r ∧ clampFactor fmax fmin t lf r ≤ fmax ∧
    lf * (1 - t) ≤ clampFactor fmax fmin t lf r ∧
    clampFactor fmax fmin t lf r ≤ lf * (1 + t) := by
  have hlf0 : 0 ≤ lf := le_trans h0 hl
  have hlt : 0 ≤ lf * t := mul_nonneg hlf0 ht
  simp only [clampFactor]
  set f1 := if r > fmax then fmax else r with hf1
  set f2 := if f1 < fmin then fmin else f1 with hf2
  set f3 := if f2 > lf * (1 + t) then lf * (1 + t) else f2 with hf3
  set f4 := if f3 < lf * (1 - t) then lf * (1 - t) else f3 with hf4
  have h2u : f2 ≤ fmax := by
    rw [hf2, hf1]; split_ifs <;> linarith
  have h2l : fmin ≤ f2 := by
    rw [hf2]; split_ifs <;> linarith
  have h3a : f3 ≤ lf * (1 + t) := by
    rw [hf3]; split_ifs <;> linarith
  have h3b : f3 ≤ fmax := by
    rw [hf3]; split_ifs <;> linarith
  have h3c : fmin ≤ f3 := by
    rw [hf3]; split_ifs <;> nlinarith
  have h4a : lf * (1 - t) ≤ f4 := by
    rw [hf4]; split_ifs <;> linarith
  have h4b : f4 ≤ lf * (1 + t) := by
    rw [hf4]; split_ifs <;> nlinarith
  have h4c : fmin ≤ f4 := by
    rw [hf4]; split_ifs <;> linarith
  have h4d : f4 ≤ fmax := by
    rw [hf4]; split_ifs <;> nlinarith
  exact ⟨h4c, h4d, h4a, h4b⟩

/-- The whole trace of stored factors stays inside `[factor_min, factor_max]`
whenever the incoming `last_factor` does. -/
theorem lastFactorTrace_bounds (fmax fmin t : ℚ) (h0 : 0 ≤ fmin) (ht : 0 ≤ t) :
    ∀ (raws : List ℚ) (lf : ℚ), fmin ≤ lf → lf ≤ fmax →
      (∀ f ∈ lastFactorTrace fmax fmin t lf raws, fmin ≤ f ∧ f ≤ fmax) ∧
      List.Chain (fun a b => a * (1 - t) ≤ b ∧ b ≤ a * (1 + t)) lf
        (lastFactorTrace fmax fmin t lf raws)
  | [], lf, _, _ => by simp [lastFactorTrace]
  | r :: rs, lf, hl, hu => by
    obtain ⟨b1, b2, b3, b4⟩ := clampFactor_bounds fmax fmin t lf r h0 ht hl hu
    obtain ⟨ih1, ih2⟩ := lastFactorTrace_bounds fmax fmin t h0 ht rs
      (clampFactor fmax fmin t lf r) b1 b2
    refine ⟨?_, ?_⟩
    · intro f hf
      rw [lastFactorTrace] at hf
      rcases List.mem_cons.mp hf with hf | hf
      · exact hf ▸ ⟨b1, b2⟩
      · exact ih1 f hf
    · rw [lastFactorTrace]
      exact List.Chain.cons ⟨b3, b4⟩ ih2

/-- A successful compression-phase parameter update stores
`clampFactor` applied to the previous `last_factor` as the new
`last_factor`. -/
theorem updParam_last_factor (sq : ℚ → ℚ) (fmax fmin t : ℚ) (g : PGroup)
    (c0 : ℚ) (olv : Vec) (p : PParam) (st : ParamState)
    (hst : p.st = some st) :
    ∃ raw, (updParam sq fmax fmin t g (some c0) (some olv) p).1.st.map
      ParamState.last_factor =
        some (clampFactor fmax fmin t st.last_factor raw) := by
  rcases p with ⟨d, pst⟩
  cases hst
  exact ⟨_, rfl⟩

/-- C1: for every compression-phase step, for all sequences of raw
(pre-clamp) correction factors — hence for all gradient sequences — and
every valid configuration (`0 ≤ factor_min ≤ 1 ≤ factor_max`,
`0 ≤ factor_threshold`), each stored `last_factor` lies in
`[factor_min, factor_max]`, and consecutive stored factors (starting from
the initial value `1`) are within `last_factor_prev * (1 ± factor_threshold)`
of each other; moreover a single `updParam` (the compression update of one
parameter, which stores `clampFactor`'s result as the new `last_factor`)
keeps the stored factor in both intervals. -/
theorem C1_factor_invariant (fmax fmin t : ℚ)
    (h0 : 0 ≤ fmin) (h1 : fmin ≤ 1) (h2 : 1 ≤ fmax) (ht : 0 ≤ t) :
    (∀ raws : List ℚ,
      (∀ f ∈ lastFactorTrace fmax fmin t 1 raws, fmin ≤ f ∧ f ≤ fmax) ∧
      List.Chain (fun a b => a * (1 - t) ≤ b ∧ b ≤ a * (1 + t)) 1
        (lastFactorTrace fmax fmin t 1 raws)) ∧
    (∀ (sq : ℚ → ℚ) (g : PGroup) (c0 : ℚ) (olv : Vec) (p : PParam)
       (st st' : ParamState),
      p.st = some st →
      (updParam sq fmax fmin t g (some c0) (some olv) p).1.st = some st' →
      fmin ≤ st.last_factor → st.last_factor ≤ fmax →
      fmin ≤ st'.last_factor ∧ st'.last_factor ≤ fmax ∧
      st.last_factor * (1 - t) ≤ st'.last_factor ∧
      st'.last_factor ≤ st.last_factor * (1 + t)) := by
  constructor
  · intro raws
    exact lastFactorTrace_bounds fmax fmin t h0 ht raws 1 h1 h2
  · intro sq g c0 olv p st st' hst hst' hl hu
    obtain ⟨raw, hraw⟩ := updParam_last_factor sq fmax fmin t g c0 olv p st hst
    rw [hst'] at hraw
    simp only [Option.map_some'] at hraw
    have hlast := Option.some.inj hraw
    rw [hlast]
    exact clampFactor_bounds fmax fmin t st.last_factor raw h0 ht hl hu

/-- Witness for C1 at a concrete configuration and input. -/
theorem C1_witness :
    ((1 : ℚ)/2 ≤ (11/10 : ℚ) ∧ (11/10 : ℚ) ≤ (9 : ℚ)/2) :=
  (C1_factor_invariant (9/2) (1/2) (1/10) (by norm_num) (by norm_num)
    (by norm_num) (by norm_num)).1 [3] |>.1 (11/10)
    (by norm_num [lastFactorTrace, clampFactor])

/-- C2, counterexample: at the end of `runC2c` the first parameter's step
counter has reached `freeze_step = 3`, yet no WARMUP → COMPRESSION
transition occurred and the raw-gradient all-reduce stays enabled, because
the transition check reads the leaked loop variable (the last parameter
processed, whose counter is only 2). -/
theorem C2_counterexample :
    runC2c.2.2 = none ∧
    ((runC2c.1.groups.headD default).params.headD default).st.map
      ParamState.step = some 3 ∧
    ((runC2c.1.groups.headD default).params.getD 1 default).st.map
      ParamState.step = some 2 ∧
    runC2c.1.freeze_step = 3 ∧
    runC2c.1.lamb_freeze_key = false ∧
    runC2c.1.enable_backward_allreduce = true := by decide

/-- C7, counterexample: saving `runC2c`'s optimizer (whose resumed step
count — the first parameter's counter — is `3 ≥ freeze_step = 3`) and
reloading does not yield the COMPRESSION phase: `lamb_freeze_key` stays
`false`. -/
theorem C7_counterexample :
    runC7.2 = none ∧
    ((runC2c.1.groups.headD default).params.headD default).st.map
      ParamState.step = some 3 ∧
    runC2c.1.freeze_step = 3 ∧
    runC7.1.lamb_freeze_key = false := by decide

/-- C3, counterexample: a sparse gradient on the second parameter raises
the fatal error, but the first parameter's state has already been mutated
(its step counter went from 1 to 2), refuting "aborts before any state
mutation". -/
theorem C3_counterexample :
    runC3.2.2 = some StepErr.sparseGrad ∧
    ((optWarm.groups.headD default).params.headD default).st.map
      ParamState.step = some 1 ∧
    ((runC3.1.groups.headD default).params.headD default).st.map
      ParamState.step = some 2 := by decide

/-- C8, counterexample: at the end of the bootstrap step no worker/server
error buffers exist (with `world_size = 1` none were even transiently
allocated), refuting "baseline error buffers are allocated"; they are only
allocated on the next (initialized) step. -/
theorem C8_counterexample :
    runC8.2.2 = none ∧ runC8.1.initialized = true ∧
    runC8.1.worker_errors = [] ∧ runC8.1.server_errors = [] ∧
    runC8.2.1.tmpErrAlloc = false := by decide

set_option maxHeartbeats 2000000 in
set_option maxRecDepth 10000 in
/-- C10, counterexample: in a compression-phase step the second parameter
has no gradient, yet its data is updated by the trust-ratio update loop
(from `-4/3` to `-19/6`) and its `last_factor` changes, refuting "step
leaves that parameter entirely untouched". -/
theorem C10_counterexample :
    runC10.2.2 = none ∧
    optC10b.lamb_freeze_key = true ∧
    (gradsAOnly.getD 0 []).getD 1 none = none ∧
    ((optC10b.groups.headD default).params.getD 1 default).data = [-4/3] ∧
    ((runC10.1.groups.headD default).params.getD 1 default).data = [-19/6] ∧
    ((optC10b.groups.headD default).params.getD 1 default).st.map
      ParamState.last_factor = some 1 ∧
    ((runC10.1.groups.headD default).params.getD 1 default).st.map
      ParamState.last_factor = some (11/10) := by with_unfolding_all decide

/-- C9: loading a checkpoint whose group carries an `exp_avg_mask` into an
optimizer whose group has none installs the checkpoint's mask — the base
loader copies the saved group options and the restore loop only rewrites
groups that had a live mask — contradicting the source's own comment
("we don't load the exp_avg_mask from the checkpoint"). -/
theorem C9_mask_leak :
    runC9.2 = none ∧
    optC9.groups.map PGroup.exp_avg_mask = [none] ∧
    runC9.1.groups.map PGroup.exp_avg_mask = [some [1]] := by decide

/-- When every parameter's momentum has the shape of its data, the
collected momentum tensors of one group flatten to the group's total
element count. -/
theorem paramsMomenta_length (ps : List PParam) (vs : List Vec)
    (h : paramsMomenta ps = some vs)
    (hs : ∀ p ∈ ps, ∀ s, p.st = some s → s.exp_avg.length = p.data.length) :
    vs.flatten.length = (ps.map (fun p => p.data.length)).sum := by
  induction ps generalizing vs with
  | nil =>
    simp only [paramsMomenta] at h
    cases h
    simp
  | cons p ps ih =>
    simp only [paramsMomenta] at h
    rcases hst : p.st with _ | s <;> rw [hst] at h
    · exact absurd h (by simp)
    · rcases hrest : paramsMomenta ps with _ | ws <;> rw [hrest] at h
      · exact absurd h (by simp)
      · cases h
        have h1 := hs p (List.mem_cons_self p ps) s hst
        have h2 := ih ws hrest (fun q hq s' hs' => hs q (List.mem_cons_of_mem p hq) s' hs')
        simp [h1, h2]

/-- Same over all groups: the fused concatenation has `totalNumel` many
elements. -/
theorem groupsMomenta_length (gs : List PGroup) (mom : List (List Vec))
    (h : groupsMomenta gs = some mom)
    (hs : ∀ g ∈ gs, ∀ p ∈ g.params, ∀ s, p.st = some s →
      s.exp_avg.length = p.data.length) :
    mom.flatten.flatten.length = totalNumel gs := by
  induction gs generalizing mom with
  | nil =>
    simp only [groupsMomenta] at h
    cases h
    simp [totalNumel]
  | cons g gs ih =>
    simp only [groupsMomenta] at h
    rcases hg : paramsMomenta g.params with _ | vs <;> rw [hg] at h
    · exact absurd h (by simp)
    · rcases hrest : groupsMomenta gs with _ | moms <;> rw [hrest] at h
      · exact absurd h (by simp)
      · cases h
        have h1 := paramsMomenta_length g.params vs hg
          (fun p hp s hs' => hs g (List.mem_cons_self g gs) p hp s hs')
        have h2 := ih moms hrest
          (fun g' hg' p hp s hs' => hs g' (List.mem_cons_of_mem g hg') p hp s hs')
        simp only [List.flatten_cons, List.flatten_append, List.length_append,
          totalNumel, List.map_cons, List.sum_cons] at h1 h2 ⊢
        rw [h1, h2]

/-- The alignment divisor is positive for any `world_size ≥ 1`. -/
theorem divider_pos (size : ℕ) (h : 1 ≤ size) : 0 < divider size := by
  have hgpos : 0 < Nat.gcd size 8 := Nat.gcd_pos_of_pos_right _ (by norm_num)
  have hg8 : Nat.gcd size 8 ∣ 8 := Nat.gcd_dvd_right _ _
  have hle : Nat.gcd size 8 ≤ 8 := Nat.le_of_dvd (by norm_num) hg8
  have : Nat.gcd size 8 ≤ size * 8 := le_trans hle (by omega)
  exact Nat.div_pos this hgpos

/-- C5: for every valid configuration (`world_size ≥ 1`) and every set of
parameter shapes (with momenta shaped like their parameters), the one-time
fused-buffer initialization succeeds and builds a flat buffer equal to the
concatenated momenta followed by a zero pad, whose element count is the
total parameter element count padded up to the next exact multiple of
`world_size * divider` (with `divider = world_size * 8 / gcd(world_size, 8)`);
the pad lives in the separate dummy buffer and the parameter groups are
untouched. -/
theorem C5_fused_padding (o o' : Opt) (mom : List (List Vec)) (e : Option StepErr)
    (hsz : 1 ≤ o.size) (hempty : o.exp_avg_flat = [])
    (hm : groupsMomenta o.groups = some mom)
    (hs : ∀ g ∈ o.groups, ∀ p ∈ g.params, ∀ s, p.st = some s →
      s.exp_avg.length = p.data.length)
    (h : fusedInitStage o = (o', e)) :
    e = none ∧ o'.groups = o.groups ∧
    mom.flatten.flatten.length = totalNumel o.groups ∧
    o'.exp_avg_flat = [mom.flatten.flatten ++
      List.replicate (padLen o.size (totalNumel o.groups)) (0 : ℚ)] ∧
    (mom.flatten.flatten ++
      List.replicate (padLen o.size (totalNumel o.groups)) (0 : ℚ)).length %
      (o.size * divider o.size) = 0 ∧
    padLen o.size (totalNumel o.groups) < o.size * divider o.size ∧
    o'.corrected_tensor_sizes = o.corrected_tensor_sizes ++
      [totalNumel o.groups + padLen o.size (totalNumel o.groups)] ∧
    (padLen o.size (totalNumel o.groups) ≠ 0 → o'.dummy_vals =
      some (List.replicate (padLen o.size (totalNumel o.groups)) (0 : ℚ))) := by
  have hlen := groupsMomenta_length o.groups mom hm hs
  have hmpos : 0 < o.size * divider o.size :=
    Nat.mul_pos (by omega) (divider_pos o.size hsz)
  unfold fusedInitStage at h
  rw [if_pos hempty, hm] at h
  dsimp only at h
  by_cases hr : totalNumel o.groups % (o.size * divider o.size) = 0
  · rw [if_neg (by simp [hr])] at h
    obtain ⟨ho', he⟩ := Prod.mk.injEq .. ▸ h
    have hd : padLen o.size (totalNumel o.groups) = 0 := by
      unfold padLen
      rw [hr, Nat.sub_zero, Nat.mod_self]
    rw [hd]
    refine ⟨he.symm, by rw [← ho'], hlen, ?_, ?_, hmpos, ?_, ?_⟩
    · rw [← ho']; simp [hempty, hlen]
    · simp [hlen, hr]
    · rw [← ho']; simp
    · intro hdne; exact absurd rfl hdne
  · rw [if_pos (by simp [hr])] at h
    obtain ⟨ho', he⟩ := Prod.mk.injEq .. ▸ h
    have h2 := Nat.mod_lt (totalNumel o.groups) hmpos
    have hd : padLen o.size (totalNumel o.groups) =
        o.size * divider o.size -
          totalNumel o.groups % (o.size * divider o.size) := by
      unfold padLen
      exact Nat.mod_eq_of_lt (by omega)
    rw [hd]
    refine ⟨he.symm, by rw [← ho'], hlen, ?_, ?_, by omega, ?_, ?_⟩
    · rw [← ho']; simp [hempty, hlen]
    · have h1 := Nat.div_add_mod (totalNumel o.groups) (o.size * divider o.size)
      have h3 : totalNumel o.groups + (o.size * divider o.size -
          totalNumel o.groups % (o.size * divider o.size)) =
          (o.size * divider o.size) * (totalNumel o.groups /
            (o.size * divider o.size)) + (o.size * divider o.size) := by omega
      simp only [List.length_append, List.length_replicate, hlen, h3,
        Nat.mul_add_mod, Nat.mod_self]
    · rw [← ho']
    · intro _; rw [← ho']

/-- Witness for C5 at a concrete optimizer (`optC9`: one parameter with a
single element, `world_size = 1`, so `divider = 8` and the pad has 7
zeros). -/
theorem C5_witness :
    (fusedInitStage optC9).2 = none ∧
    (fusedInitStage optC9).1.groups = optC9.groups :=
  let r := C5_fused_padding optC9 (fusedInitStage optC9).1 [[[0]]]
    (fusedInitStage optC9).2 (by decide) (by decide) (by decide)
    (by decide) rfl
  ⟨r.1, r.2.1⟩

/-- Round trip: unflattening the flattened momenta by their own shapes
recovers every tensor. -/
theorem unflattenDense_flattenDense (vs : List Vec) :
    unflattenDense (flattenDense vs) vs = vs := by
  induction vs with
  | nil => rfl
  | cons v vs ih =>
    simp only [flattenDense, List.flatten_cons, unflattenDense,
      List.take_left, List.drop_left]
    rw [List.cons.injEq]
    exact ⟨rfl, ih⟩

/-- Offset of the head tensor. -/
theorem offsetOf_zero (vs : List Vec) : offsetOf vs 0 = 0 := by
  simp [offsetOf]

/-- Offset of a later tensor. -/
theorem offsetOf_succ (v : Vec) (vs : List Vec) (j : ℕ) :
    offsetOf (v :: vs) (j + 1) = v.length + offsetOf vs j := by
  simp [offsetOf, List.take_succ_cons]

/-- C6: fuse-then-unflatten is the identity on momentum values, and the
views alias the fused storage: writing one cell of the flat buffer is
observed as writing the corresponding cell of exactly one parameter's
momentum view. -/
theorem C6_roundtrip_alias :
    (∀ vs : List Vec, unflattenDense (flattenDense vs) vs = vs) ∧
    (∀ (vs : List Vec) (j i : ℕ) (x : ℚ), j < vs.length →
      i < (vs.getD j []).length →
      unflattenDense ((flattenDense vs).set (offsetOf vs j + i) x) vs =
        vs.set j ((vs.getD j []).set i x)) := by
  constructor
  · exact unflattenDense_flattenDense
  · intro vs j i x hj hi
    induction vs generalizing j with
    | nil => exact absurd hj (by simp)
    | cons v vs ih =>
      cases j with
      | zero =>
        simp only [List.getD_cons_zero] at hi
        simp only [offsetOf_zero, Nat.zero_add, flattenDense, List.flatten_cons,
          List.set_append_left _ _ hi, unflattenDense, List.getD_cons_zero,
          List.set_cons_zero]
        rw [List.take_left' (List.length_set v i x ▸ rfl),
          List.drop_left' (List.length_set v i x ▸ rfl)]
        rw [List.cons.injEq]
        exact ⟨rfl, unflattenDense_flattenDense vs⟩
      | succ j =>
        have hj' : j < vs.length := by simpa using hj
        have hi' : i < (vs.getD j []).length := by simpa using hi
        simp only [offsetOf_succ, flattenDense, List.flatten_cons]
        rw [Nat.add_assoc,
          List.set_append_right _ _ (Nat.le_add_right _ _),
          Nat.add_sub_cancel_left]
        simp only [unflattenDense, List.take_left, List.drop_left,
          List.getD_cons_succ, List.set_cons_succ]
        rw [List.cons.injEq]
        exact ⟨rfl, ih j hj' hi'⟩

/-- Witness for C6 at a concrete fused buffer. -/
theorem C6_witness :
    unflattenDense ((flattenDense [[1], [2, 3]]).set
      (offsetOf [[1], [2, 3]] 1 + 1) 5) [[1], [2, 3]] =
      [[1], [2, 3]].set 1 (([2, 3] : Vec).set 1 5) :=
  C6_roundtrip_alias.2 [[1], [2, 3]] 1 1 5 (by decide) (by decide)

/-! ### Stage frame lemmas -/

/-- `scalingStage` only ever touches `scaling_coeffs`. -/
theorem scalingStage_frame (sq : ℚ → ℚ) (o : Opt) :
    (scalingStage sq o).1.groups = o.groups ∧
    (scalingStage sq o).1.lamb_freeze_key = o.lamb_freeze_key ∧
    (scalingStage sq o).1.initialized = o.initialized ∧
    (scalingStage sq o).1.freeze_step = o.freeze_step ∧
    (scalingStage sq o).1.size = o.size ∧
    (scalingStage sq o).1.worker_errors = o.worker_errors ∧
    (scalingStage sq o).1.server_errors = o.server_errors ∧
    (scalingStage sq o).1.exp_avg_flat = o.exp_avg_flat ∧
    (scalingStage sq o).1.enable_backward_allreduce = o.enable_backward_allreduce ∧
    (scalingStage sq o).1.lamb_coeffs = o.lamb_coeffs := by
  unfold scalingStage
  split_ifs with h h2 <;>
    rcases groupsMomenta o.groups with _ | mom <;>
      exact ⟨rfl, rfl, rfl, rfl, rfl, rfl, rfl, rfl, rfl, rfl⟩

/-- Outside the compression phase `scalingStage` is the identity. -/
theorem scalingStage_of_not_freeze (sq : ℚ → ℚ) (o : Opt)
    (h : o.lamb_freeze_key = false) : scalingStage sq o = (o, [], none) := by
  unfold scalingStage
  rw [if_neg (by simp [h])]

/-- `mainLoopStage` does not touch the non-loop fields. -/
theorem mainLoopStage_frame (sq : ℚ → ℚ) (o : Opt)
    (gs : List (List (Option GradIn))) :
    (mainLoopStage sq o gs).1.scaling_coeffs = o.scaling_coeffs ∧
    (mainLoopStage sq o gs).1.initialized = o.initialized ∧
    (mainLoopStage sq o gs).1.freeze_step = o.freeze_step ∧
    (mainLoopStage sq o gs).1.size = o.size ∧
    (mainLoopStage sq o gs).1.worker_errors = o.worker_errors ∧
    (mainLoopStage sq o gs).1.server_errors = o.server_errors ∧
    (mainLoopStage sq o gs).1.exp_avg_flat = o.exp_avg_flat ∧
    (mainLoopStage sq o gs).1.corrected_tensor_sizes = o.corrected_tensor_sizes ∧
    (mainLoopStage sq o gs).1.server_chunk_sizes = o.server_chunk_sizes ∧
    (mainLoopStage sq o gs).1.dummy_vals = o.dummy_vals ∧
    (mainLoopStage sq o gs).1.enable_backward_allreduce =
      o.enable_backward_allreduce :=
  ⟨rfl, rfl, rfl, rfl, rfl, rfl, rfl, rfl, rfl, rfl, rfl⟩

/-- `fusedInitStage` only touches the fusion bookkeeping fields. -/
theorem fusedInitStage_frame (o : Opt) :
    (fusedInitStage o).1.groups = o.groups ∧
    (fusedInitStage o).1.lamb_freeze_key = o.lamb_freeze_key ∧
    (fusedInitStage o).1.initialized = o.initialized ∧
    (fusedInitStage o).1.freeze_step = o.freeze_step ∧
    (fusedInitStage o).1.size = o.size ∧
    (fusedInitStage o).1.scaling_coeffs = o.scaling_coeffs ∧
    (fusedInitStage o).1.worker_errors = o.worker_errors ∧
    (fusedInitStage o).1.server_errors = o.server_errors ∧
    (fusedInitStage o).1.enable_backward_allreduce = o.enable_backward_allreduce ∧
    (fusedInitStage o).1.lamb_coeffs = o.lamb_coeffs := by
  unfold fusedInitStage
  split_ifs with h
  · rcases groupsMomenta o.groups with _ | mom
    · exact ⟨rfl, rfl, rfl, rfl, rfl, rfl, rfl, rfl, rfl, rfl⟩
    · dsimp only
      split_ifs with h2 <;> exact ⟨rfl, rfl, rfl, rfl, rfl, rfl, rfl, rfl, rfl, rfl⟩
  · exact ⟨rfl, rfl, rfl, rfl, rfl, rfl, rfl, rfl, rfl, rfl⟩

/-- A successful `fusedInitStage` leaves a nonempty `exp_avg_flat`. -/
theorem fusedInitStage_flat_ne (o o' : Opt) (e : Option StepErr)
    (h : fusedInitStage o = (o', e)) :
    o.exp_avg_flat ≠ [] → o'.exp_avg_flat = o.exp_avg_flat := by
  intro hflat
  unfold fusedInitStage at h
  rw [if_neg hflat] at h
  obtain ⟨ho', -⟩ := Prod.mk.injEq .. ▸ h
  rw [← ho']

/-- `errorAllocStage` only touches the error buffers. -/
theorem errorAllocStage_frame (o : Opt) :
    (errorAllocStage o).groups = o.groups ∧
    (errorAllocStage o).lamb_freeze_key = o.lamb_freeze_key ∧
    (errorAllocStage o).initialized = o.initialized ∧
    (errorAllocStage o).freeze_step = o.freeze_step ∧
    (errorAllocStage o).size = o.size ∧
    (errorAllocStage o).scaling_coeffs = o.scaling_coeffs ∧
    (errorAllocStage o).exp_avg_flat = o.exp_avg_flat ∧
    (errorAllocStage o).enable_backward_allreduce = o.enable_backward_allreduce ∧
    (errorAllocStage o).lamb_coeffs = o.lamb_coeffs := by
  unfold errorAllocStage
  split_ifs with h <;> exact ⟨rfl, rfl, rfl, rfl, rfl, rfl, rfl, rfl, rfl⟩

/-- When the optimizer is not initialized, `errorAllocStage` is the
identity. -/
theorem errorAllocStage_of_not_init (o : Opt) (h : o.initialized = false) :
    errorAllocStage o = o := by
  unfold errorAllocStage
  rw [if_neg (by simp [h])]

/-- `scatterStage` only touches `groups`, `dummy_vals` and `exp_avg_flat`. -/
theorem scatterStage_frame (o : Opt) (flat : Vec) :
    (scatterStage o flat).lamb_freeze_key = o.lamb_freeze_key ∧
    (scatterStage o flat).initialized = o.initialized ∧
    (scatterStage o flat).freeze_step = o.freeze_step ∧
    (scatterStage o flat).size = o.size ∧
    (scatterStage o flat).scaling_coeffs = o.scaling_coeffs ∧
    (scatterStage o flat).worker_errors = o.worker_errors ∧
    (scatterStage o flat).server_errors = o.server_errors ∧
    (scatterStage o flat).enable_backward_allreduce =
      o.enable_backward_allreduce ∧
    (scatterStage o flat).lamb_coeffs = o.lamb_coeffs :=
  ⟨rfl, rfl, rfl, rfl, rfl, rfl, rfl, rfl, rfl⟩

/-- `allreduceStage` does not touch the phase flags or scaling state. -/
theorem allreduceStage_frame (ar : Vec → Vec → Vec → Vec × Vec × Vec) (o : Opt) :
    (allreduceStage ar o).1.lamb_freeze_key = o.lamb_freeze_key ∧
    (allreduceStage ar o).1.initialized = o.initialized ∧
    (allreduceStage ar o).1.freeze_step = o.freeze_step ∧
    (allreduceStage ar o).1.size = o.size ∧
    (allreduceStage ar o).1.scaling_coeffs = o.scaling_coeffs ∧
    (allreduceStage ar o).1.enable_backward_allreduce =
      o.enable_backward_allreduce ∧
    (allreduceStage ar o).1.lamb_coeffs = o.lamb_coeffs := by
  unfold allreduceStage
  split_ifs with h1 h2 h3 <;>
    exact ⟨rfl, rfl, rfl, rfl, rfl, rfl, rfl⟩

/-- Outside the compression phase `allreduceStage` is the identity. -/
theorem allreduceStage_of_not_freeze (ar : Vec → Vec → Vec → Vec × Vec × Vec)
    (o : Opt) (h : o.lamb_freeze_key = false) :
    allreduceStage ar o = (o, ⟨false⟩) := by
  unfold allreduceStage
  rw [if_neg (by simp [h])]

/-- `updateLoopStage` only touches `groups` and `lamb_coeffs`. -/
theorem updateLoopStage_frame (sq : ℚ → ℚ) (ols : List (List Vec)) (o : Opt) :
    (updateLoopStage sq ols o).1.lamb_freeze_key = o.lamb_freeze_key ∧
    (updateLoopStage sq ols o).1.initialized = o.initialized ∧
    (updateLoopStage sq ols o).1.freeze_step = o.freeze_step ∧
    (updateLoopStage sq ols o).1.size = o.size ∧
    (updateLoopStage sq ols o).1.scaling_coeffs = o.scaling_coeffs ∧
    (updateLoopStage sq ols o).1.worker_errors = o.worker_errors ∧
    (updateLoopStage sq ols o).1.server_errors = o.server_errors ∧
    (updateLoopStage sq ols o).1.exp_avg_flat = o.exp_avg_flat ∧
    (updateLoopStage sq ols o).1.enable_backward_allreduce =
      o.enable_backward_allreduce := by
  unfold updateLoopStage
  split_ifs with h <;> exact ⟨rfl, rfl, rfl, rfl, rfl, rfl, rfl, rfl, rfl⟩

/-- Outside the initialized compression phase, the update loop is skipped. -/
theorem updateLoopStage_of_skip (sq : ℚ → ℚ) (ols : List (List Vec)) (o : Opt)
    (h : o.lamb_freeze_key = false ∨ o.initialized = false) :
    updateLoopStage sq ols o = (o, none) := by
  unfold updateLoopStage
  rcases h with h | h <;> rw [if_neg (by simp [h])]

/-- `finalizeStage` only touches the phase flags. -/
theorem finalizeStage_frame (o : Opt) (lastStp : Option ℕ) :
    (finalizeStage o lastStp).1.groups = o.groups ∧
    (finalizeStage o lastStp).1.scaling_coeffs = o.scaling_coeffs ∧
    (finalizeStage o lastStp).1.worker_errors = o.worker_errors ∧
    (finalizeStage o lastStp).1.server_errors = o.server_errors ∧
    (finalizeStage o lastStp).1.exp_avg_flat = o.exp_avg_flat ∧
    (finalizeStage o lastStp).1.freeze_step = o.freeze_step ∧
    (finalizeStage o lastStp).1.lamb_coeffs = o.lamb_coeffs := by
  unfold finalizeStage
  split_ifs with h1 h2
  · exact ⟨rfl, rfl, rfl, rfl, rfl, rfl, rfl⟩
  · rcases lastStp with _ | s
    · exact ⟨rfl, rfl, rfl, rfl, rfl, rfl, rfl⟩
    · dsimp only
      split_ifs with h3 <;> exact ⟨rfl, rfl, rfl, rfl, rfl, rfl, rfl⟩
  · exact ⟨rfl, rfl, rfl, rfl, rfl, rfl, rfl⟩

/-- Decomposition of a successful `step` call into its stages. -/
theorem step_success_decomp (sq : ℚ → ℚ)
    (ar : Vec → Vec → Vec → Vec × Vec × Vec) (o : Opt)
    (gs : List (List (Option GradIn))) (o' : Opt) (log : StepLog)
    (h : step sq ar o gs = (o', log, none)) :
    ∃ o1 ols o2 lastStp o3 o6,
      scalingStage sq { o with lamb_coeffs := [] } = (o1, ols, none) ∧
      mainLoopStage sq o1 gs = (o2, lastStp, none) ∧
      fusedInitStage o2 = (o3, none) ∧
      updateLoopStage sq ols (allreduceStage ar (errorAllocStage o3)).1 =
        (o6, none) ∧
      finalizeStage o6 lastStp = (o', none) ∧
      log = (allreduceStage ar (errorAllocStage o3)).2 := by
  unfold step at h
  dsimp only at h
  rcases h1 : scalingStage sq { o with lamb_coeffs := [] } with ⟨o1, ols, e1⟩
  rw [h1] at h
  rcases e1 with _ | e1
  · dsimp only at h
    rcases h2 : mainLoopStage sq o1 gs with ⟨o2, lastStp, e2⟩
    rw [h2] at h
    rcases e2 with _ | e2
    · dsimp only at h
      rcases h3 : fusedInitStage o2 with ⟨o3, e3⟩
      rw [h3] at h
      rcases e3 with _ | e3
      · dsimp only at h
        rcases h6 : updateLoopStage sq ols (allreduceStage ar
          (errorAllocStage o3)).1 with ⟨o6, e6⟩
        rw [h6] at h
        rcases e6 with _ | e6
        · dsimp only at h
          obtain ⟨ho7, hrest⟩ := Prod.mk.injEq .. ▸ h
          obtain ⟨hlog, he7⟩ := Prod.mk.injEq .. ▸ hrest
          exact ⟨o1, ols, o2, lastStp, o3, o6, rfl, h2, h3, h6,
            by rw [← ho7, ← he7], hlog.symm⟩
        · dsimp only at h
          obtain ⟨-, hrest⟩ := Prod.mk.injEq .. ▸ h
          obtain ⟨-, hcon⟩ := Prod.mk.injEq .. ▸ hrest
          exact absurd hcon.symm (by simp)
      · dsimp only at h
        obtain ⟨-, hrest⟩ := Prod.mk.injEq .. ▸ h
        obtain ⟨-, hcon⟩ := Prod.mk.injEq .. ▸ hrest
        exact absurd hcon.symm (by simp)
    · dsimp only at h
      obtain ⟨-, hrest⟩ := Prod.mk.injEq .. ▸ h
      obtain ⟨-, hcon⟩ := Prod.mk.injEq .. ▸ hrest
      exact absurd hcon.symm (by simp)
  · dsimp only at h
    obtain ⟨-, hrest⟩ := Prod.mk.injEq .. ▸ h
    obtain ⟨-, hcon⟩ := Prod.mk.injEq .. ▸ hrest
    exact absurd hcon.symm (by simp)

/-- Zipping a list with itself pointwise. -/
theorem zipWith_self_map (f : ℚ → ℚ → ℚ) :
    ∀ l : List ℚ, List.zipWith f l l = l.map (fun a => f a a)
  | [] => rfl
  | a :: l => by
    simp only [List.zipWith_cons_cons, List.map_cons, zipWith_self_map f l]

/-- The scaling stage leaves the optimizer unchanged when the coefficients
already exist. -/
theorem scalingStage_of_nonempty (sq : ℚ → ℚ) (o : Opt)
    (h : o.scaling_coeffs ≠ []) : (scalingStage sq o).1 = o := by
  unfold scalingStage
  by_cases hf : o.lamb_freeze_key = true
  · rw [if_pos hf]
    rcases groupsMomenta o.groups with _ | mom
    · rfl
    · dsimp only
      rw [if_neg h]
  · rw [if_neg hf]

/-- The scaling stage computes the coefficients on the first compression
step. -/
theorem scalingStage_of_empty (sq : ℚ → ℚ) (o : Opt) (mom : List (List Vec))
    (hf : o.lamb_freeze_key = true) (he : o.scaling_coeffs = [])
    (hm : groupsMomenta o.groups = some mom) :
    scalingStage sq o =
      ({ o with scaling_coeffs := computeScalingCoeffs sq mom }, mom, none) := by
  unfold scalingStage
  rw [if_pos hf, hm]
  dsimp only
  rw [if_pos he]

/-- After a successful step, the live `scaling_coeffs` are exactly what the
scaling stage left. -/
theorem step_scaling_after (sq : ℚ → ℚ)
    (ar : Vec → Vec → Vec → Vec × Vec × Vec) (o : Opt)
    (gs : List (List (Option GradIn))) (o' : Opt) (log : StepLog)
    (h : step sq ar o gs = (o', log, none)) :
    o'.scaling_coeffs =
      (scalingStage sq { o with lamb_coeffs := [] }).1.scaling_coeffs := by
  obtain ⟨o1, ols, o2, lastStp, o3, o6, h1, h2, h3, h6, h7, -⟩ :=
    step_success_decomp sq ar o gs o' log h
  have e1 : o1 = (scalingStage sq { o with lamb_coeffs := [] }).1 := by rw [h1]
  have e2 : o2 = (mainLoopStage sq o1 gs).1 := by rw [h2]
  have e3 : o3 = (fusedInitStage o2).1 := by rw [h3]
  have e6 : o6 = (updateLoopStage sq ols
      (allreduceStage ar (errorAllocStage o3)).1).1 := by rw [h6]
  have e7 : o' = (finalizeStage o6 lastStp).1 := by rw [h7]
  rw [e7, (finalizeStage_frame o6 lastStp).2.1, e6,
    (updateLoopStage_frame sq ols _).2.2.2.2.1,
    (allreduceStage_frame ar _).2.2.2.2.1,
    (errorAllocStage_frame o3).2.2.2.2.2.1, e3,
    (fusedInitStage_frame o2).2.2.2.2.2.1, e2,
    (mainLoopStage_frame sq o1 gs).1, e1]

/-- C4: scaling coefficients are `united_scale / magnitude` with
`magnitude = norm(momentum)/sqrt(numel)`; consequently, when all magnitudes
are nonzero, the mean over all parameters of `magnitude * coefficient`
equals `united_scale` (the equalization property); the coefficients are
computed exactly on a compression step that finds `scaling_coeffs` empty,
and are left unchanged by every later compression step. -/
theorem C4_scaling_equalization :
    (∀ (sq : ℚ → ℚ) (momenta : List (List Vec)),
      (momenta.map (fun vs => vs.map (momentumScale sq))).flatten ≠ [] →
      (∀ m ∈ (momenta.map (fun vs => vs.map (momentumScale sq))).flatten,
        m ≠ 0) →
      (List.zipWith (· * ·)
          (momenta.map (fun vs => vs.map (momentumScale sq))).flatten
          (computeScalingCoeffs sq momenta).flatten).sum /
        (((momenta.map (fun vs => vs.map (momentumScale sq))).flatten.length :
          ℕ) : ℚ) =
        unitedScale (momenta.map (fun vs => vs.map (momentumScale sq)))) ∧
    (∀ (sq : ℚ → ℚ) (ar : Vec → Vec → Vec → Vec × Vec × Vec) (o : Opt)
       (gs : List (List (Option GradIn))) (o' : Opt) (log : StepLog),
      o.lamb_freeze_key = true → o.scaling_coeffs ≠ [] →
      step sq ar o gs = (o', log, none) →
      o'.scaling_coeffs = o.scaling_coeffs) ∧
    (∀ (sq : ℚ → ℚ) (ar : Vec → Vec → Vec → Vec × Vec × Vec) (o : Opt)
       (gs : List (List (Option GradIn))) (o' : Opt) (log : StepLog)
       (mom : List (List Vec)),
      o.lamb_freeze_key = true → o.scaling_coeffs = [] →
      groupsMomenta o.groups = some mom →
      step sq ar o gs = (o', log, none) →
      o'.scaling_coeffs = computeScalingCoeffs sq mom) := by
  refine ⟨?_, ?_, ?_⟩
  · intro sq momenta hne hnz
    set ms := momenta.map (fun vs => vs.map (momentumScale sq)) with hms
    have hflat : (computeScalingCoeffs sq momenta).flatten =
        ms.flatten.map (fun m => unitedScale ms / m) := by
      rw [computeScalingCoeffs, ← hms, (List.map_flatten ..).symm]
    rw [hflat, List.zipWith_map_right, zipWith_self_map]
    have hmap : ms.flatten.map (fun a => a * (unitedScale ms / a)) =
        ms.flatten.map (fun _ => unitedScale ms) := by
      apply List.map_congr_left
      intro a ha
      rw [mul_div_assoc']
      rw [mul_comm, mul_div_assoc, div_self (hnz a ha), mul_one]
    rw [hmap, List.map_const', List.sum_replicate, nsmul_eq_mul]
    have hlen : ((ms.flatten.length : ℕ) : ℚ) ≠ 0 := by
      have := List.length_pos.mpr hne
      exact Nat.cast_ne_zero.mpr (by omega)
    rw [mul_comm, mul_div_assoc, div_self hlen, mul_one]
  · intro sq ar o gs o' log hf hne h
    rw [step_scaling_after sq ar o gs o' log h,
      scalingStage_of_nonempty sq { o with lamb_coeffs := [] } (by exact hne)]
  · intro sq ar o gs o' log mom hf he hm h
    rw [step_scaling_after sq ar o gs o' log h,
      scalingStage_of_empty sq { o with lamb_coeffs := [] } mom (by exact hf)
        (by exact he) (by exact hm)]

/-- Witness for C4 at a concrete pair of momenta with magnitudes in ratio
2 : 8 (so the computed coefficients are inversely proportional, 4 : 1). -/
theorem C4_witness :
    (List.zipWith (· * ·)
        ([[[2]], [[8]]].map (fun vs => vs.map (momentumScale sqLin))).flatten
        (computeScalingCoeffs sqLin [[[2]], [[8]]]).flatten).sum /
      ((([[[2]], [[8]]].map (fun vs =>
        vs.map (momentumScale sqLin))).flatten.length : ℕ) : ℚ) =
      unitedScale ([[[2]], [[8]]].map (fun vs =>
        vs.map (momentumScale sqLin))) :=
  C4_scaling_equalization.1 sqLin [[[2]], [[8]]]
    (by with_unfolding_all decide) (by with_unfolding_all decide)

/-- After the bootstrap, a single parameter step never changes
`lamb_freeze_key` (line 208 only fires when `self.initialize` is false). -/
theorem stepParam_freeze_of_init (sq : ℚ → ℚ) (fs : ℕ) (cb : ℚ) (g : PGroup)
    (freeze : Bool) (scal : Option ℚ) (p : PParam) (gr : Option GradIn) :
    (stepParam sq true fs cb g freeze scal p gr).2.1 = freeze := by
  unfold stepParam
  rcases gr with _ | gin
  · rfl
  · dsimp only
    by_cases hsp : gin.is_sparse = true
    · rw [if_pos hsp]
    · rw [if_neg hsp]
      rcases scal with _ | c <;> cases freeze <;> rfl

/-- Loop version of `stepParam_freeze_of_init`. -/
theorem loopParams_freeze_of_init (sq : ℚ → ℚ) (fs : ℕ) (cb : ℚ) (g : PGroup) :
    ∀ (freeze : Bool) (scals : Option (List ℚ)) (ps : List PParam)
      (gl : List (Option GradIn)),
      (loopParams sq true fs cb g freeze scals ps gl).2.1 = freeze
  | freeze, scals, [], gl => rfl
  | freeze, scals, p :: ps, gl => by
    unfold loopParams
    have hf := stepParam_freeze_of_init sq fs cb g freeze (scals.bind List.head?)
      p (gl.headD none)
    rcases hr : stepParam sq true fs cb g freeze (scals.bind List.head?) p
      (gl.headD none) with ⟨p1, f1, cs1, s1, e1⟩
    rw [hr] at hf
    dsimp only at hf
    dsimp only
    rcases e1 with _ | e1
    · dsimp only
      rw [loopParams_freeze_of_init sq fs cb g f1 (scals.map List.tail) ps
        gl.tail, hf]
    · exact hf

/-- Group-loop version. -/
theorem loopGroups_freeze_of_init (sq : ℚ → ℚ) (fs : ℕ) (cb : ℚ) :
    ∀ (freeze : Bool) (scalss : List (List ℚ)) (gps : List PGroup)
      (ggl : List (List (Option GradIn))),
      (loopGroups sq true fs cb freeze scalss gps ggl).2.1 = freeze
  | freeze, scalss, [], ggl => rfl
  | freeze, scalss, g :: gps, ggl => by
    unfold loopGroups
    have hf := loopParams_freeze_of_init sq fs cb g freeze scalss.head?
      g.params (ggl.headD [])
    rcases hr : loopParams sq true fs cb g freeze scalss.head? g.params
      (ggl.headD []) with ⟨ps1, f1, cs1, s1, e1⟩
    rw [hr] at hf
    dsimp only at hf
    dsimp only
    rcases e1 with _ | e1
    · dsimp only
      rw [loopGroups_freeze_of_init sq fs cb f1 scalss.tail gps ggl.tail, hf]
    · exact hf

/-- After the bootstrap, the main loop never changes `lamb_freeze_key`. -/
theorem mainLoopStage_freeze_of_init (sq : ℚ → ℚ) (o : Opt)
    (gs : List (List (Option GradIn))) (h : o.initialized = true) :
    (mainLoopStage sq o gs).1.lamb_freeze_key = o.lamb_freeze_key := by
  unfold mainLoopStage
  dsimp only
  rw [h, loopGroups_freeze_of_init]

/-- The bootstrap's commit: the very first invocation ends by clearing the
phase flag and setting the initialized flag. -/
theorem finalizeStage_of_not_init (o : Opt) (lastStp : Option ℕ)
    (h : o.initialized = false) :
    finalizeStage o lastStp =
      ({ o with lamb_freeze_key := false, initialized := true }, none) := by
  unfold finalizeStage
  rw [if_pos h]

/-- The phase-transition check after an initialized warmup step. -/
theorem finalizeStage_of_init_nofreeze (o : Opt) (lastStp : Option ℕ) (s : ℕ)
    (hi : o.initialized = true) (hf : o.lamb_freeze_key = false)
    (hs : lastStp = some s) :
    finalizeStage o lastStp =
      (if o.freeze_step ≤ s then
        ({ o with lamb_freeze_key := true, enable_backward_allreduce := false },
          none)
       else (o, none)) := by
  unfold finalizeStage
  rw [if_neg (by simp [hi]), if_pos (by simp [hf]), hs]

/-- C2 (amended): after the bootstrap, a successful warmup step triggers the
WARMUP → COMPRESSION transition exactly when the step counter of the LAST
parameter processed with a gradient — the leaked loop variable `state`
read at line 384, `leakedCounter` here — has reached `freeze_step`; on
transition the raw-gradient all-reduce of the training loop is disabled,
otherwise it is left unchanged. -/
theorem C2_transition_leaked (sq : ℚ → ℚ)
    (ar : Vec → Vec → Vec → Vec × Vec × Vec) (o : Opt)
    (gs : List (List (Option GradIn))) (o' : Opt) (log : StepLog) (s : ℕ)
    (hinit : o.initialized = true) (hfr : o.lamb_freeze_key = false)
    (hlast : leakedCounter sq o gs = some s)
    (h : step sq ar o gs = (o', log, none)) :
    (o'.lamb_freeze_key = true ↔ o.freeze_step ≤ s) ∧
    (o'.lamb_freeze_key = true → o'.enable_backward_allreduce = false) ∧
    (o'.lamb_freeze_key = false →
      o'.enable_backward_allreduce = o.enable_backward_allreduce) := by
  obtain ⟨o1, ols, o2, lastStp, o3, o6, h1, h2, h3, h6, h7, -⟩ :=
    step_success_decomp sq ar o gs o' log h
  rw [scalingStage_of_not_freeze sq { o with lamb_coeffs := [] }
    (by exact hfr)] at h1
  obtain ⟨ho1, -⟩ := Prod.mk.injEq .. ▸ h1
  have e2 : o2 = (mainLoopStage sq o1 gs).1 := by rw [h2]
  have e3 : o3 = (fusedInitStage o2).1 := by rw [h3]
  have e6 : o6 = (updateLoopStage sq ols
      (allreduceStage ar (errorAllocStage o3)).1).1 := by rw [h6]
  -- the leaked counter is the main loop's lastStp
  have hlast2 : lastStp = some s := by
    unfold leakedCounter at hlast
    rw [ho1, h2] at hlast
    exact hlast
  -- flags reaching finalizeStage
  have hfr2 : o2.lamb_freeze_key = false := by
    rw [e2, mainLoopStage_freeze_of_init sq o1 gs (by rw [← ho1]; exact hinit),
      ← ho1]
    exact hfr
  have hinit2 : o2.initialized = true := by
    rw [e2, (mainLoopStage_frame sq o1 gs).2.1, ← ho1]
    exact hinit
  have hfr6 : o6.lamb_freeze_key = false := by
    rw [e6, (updateLoopStage_frame sq ols _).1, (allreduceStage_frame ar _).1,
      (errorAllocStage_frame o3).2.1, e3, (fusedInitStage_frame o2).2.1, hfr2]
  have hinit6 : o6.initialized = true := by
    rw [e6, (updateLoopStage_frame sq ols _).2.1,
      (allreduceStage_frame ar _).2.1, (errorAllocStage_frame o3).2.2.1, e3,
      (fusedInitStage_frame o2).2.2.1, hinit2]
  have hfs6 : o6.freeze_step = o.freeze_step := by
    rw [e6, (updateLoopStage_frame sq ols _).2.2.1,
      (allreduceStage_frame ar _).2.2.1, (errorAllocStage_frame o3).2.2.2.1,
      e3, (fusedInitStage_frame o2).2.2.2.1, e2,
      (mainLoopStage_frame sq o1 gs).2.2.1, ← ho1]
  have hba6 : o6.enable_backward_allreduce = o.enable_backward_allreduce := by
    rw [e6, (updateLoopStage_frame sq ols _).2.2.2.2.2.2.2.2,
      (allreduceStage_frame ar _).2.2.2.2.2.1,
      (errorAllocStage_frame o3).2.2.2.2.2.2.2.1, e3,
      (fusedInitStage_frame o2).2.2.2.2.2.2.2.2.1, e2,
      (mainLoopStage_frame sq o1 gs).2.2.2.2.2.2.2.2.2.2, ← ho1]
  rw [finalizeStage_of_init_nofreeze o6 lastStp s hinit6 hfr6 hlast2, hfs6]
    at h7
  by_cases hcmp : o.freeze_step ≤ s
  · rw [if_pos hcmp] at h7
    obtain ⟨ho', -⟩ := Prod.mk.injEq .. ▸ h7
    rw [← ho']
    exact ⟨by simp [hcmp], fun _ => rfl, by simp⟩
  · rw [if_neg hcmp] at h7
    obtain ⟨ho', -⟩ := Prod.mk.injEq .. ▸ h7
    rw [← ho']
    exact ⟨by simp [hfr6, hcmp], by simp [hfr6], fun _ => hba6⟩

/-- Witness for C2 (amended) on the concrete `runC2b` step: the last
parameter processed with a gradient has counter 2, below
`freeze_step = 3`, so no transition. -/
theorem C2_transition_witness :
    (runC2b.1.lamb_freeze_key = true ↔ runC2a.1.freeze_step ≤ 2) ∧
    (runC2b.1.lamb_freeze_key = true →
      runC2b.1.enable_backward_allreduce = false) ∧
    (runC2b.1.lamb_freeze_key = false →
      runC2b.1.enable_backward_allreduce =
        runC2a.1.enable_backward_allreduce) :=
  C2_transition_leaked sqLin arKeep runC2a.1 gradsAOnly runC2b.1 runC2b.2.1 2
    (by decide) (by decide) (by decide) (by with_unfolding_all decide)

/-- `headD`/`getD` bookkeeping for the gradient lists. -/
theorem headD_eq_getD (l : List (Option GradIn)) : l.headD none = l.getD 0 none := by
  cases l <;> rfl

/-- `tail` shifts `getD` by one. -/
theorem tail_getD (l : List (Option GradIn)) (j : ℕ) :
    l.tail.getD j none = l.getD (j + 1) none := by
  cases l <;> rfl

/-- `headD`/`getD` for group-level gradient lists. -/
theorem headD_eq_getD_gl (l : List (List (Option GradIn))) :
    l.headD [] = l.getD 0 [] := by
  cases l <;> rfl

/-- `tail` shifts group-level `getD` by one. -/
theorem tail_getD_gl (l : List (List (Option GradIn))) (i : ℕ) :
    l.tail.getD i [] = l.getD (i + 1) [] := by
  cases l <;> rfl

/-- A parameter whose effective gradient is absent is returned unchanged by
the inner loop, wherever it sits. -/
theorem loopParams_getD_of_none (sq : ℚ → ℚ) (init : Bool) (fs : ℕ) (cb : ℚ)
    (g : PGroup) :
    ∀ (freeze : Bool) (scals : Option (List ℚ)) (ps : List PParam)
      (gl : List (Option GradIn)) (j : ℕ),
      gl.getD j none = none →
      (loopParams sq init fs cb g freeze scals ps gl).1.getD j default =
        ps.getD j default
  | _, _, [], _, _, _ => rfl
  | freeze, scals, p :: ps, gl, 0, hg => by
    unfold loopParams
    have hstep : stepParam sq init fs cb g freeze (scals.bind List.head?) p
        (gl.headD none) = (p, freeze, [], none, none) := by
      rw [headD_eq_getD, hg]
      rfl
    rw [hstep]
    rfl
  | freeze, scals, p :: ps, gl, j + 1, hg => by
    unfold loopParams
    rcases hr : stepParam sq init fs cb g freeze (scals.bind List.head?) p
      (gl.headD none) with ⟨p1, f1, cs1, s1, e1⟩
    dsimp only
    rcases e1 with _ | e1
    · dsimp only
      simp only [List.getD_cons_succ]
      exact loopParams_getD_of_none sq init fs cb g f1 (scals.map List.tail)
        ps gl.tail j (by rw [tail_getD, hg])
    · dsimp only
      simp only [List.getD_cons_succ]

/-- Group-level version. -/
theorem loopGroups_getD_of_none (sq : ℚ → ℚ) (init : Bool) (fs : ℕ) (cb : ℚ) :
    ∀ (freeze : Bool) (scalss : List (List ℚ)) (gps : List PGroup)
      (ggl : List (List (Option GradIn))) (i j : ℕ),
      (ggl.getD i []).getD j none = none →
      (((loopGroups sq init fs cb freeze scalss gps ggl).1.getD i
        default).params.getD j default) =
        ((gps.getD i default).params.getD j default)
  | _, _, [], _, _, _, _ => rfl
  | freeze, scalss, g :: gps, ggl, 0, j, hg => by
    unfold loopGroups
    rcases hr : loopParams sq init fs cb g freeze scalss.head? g.params
      (ggl.headD []) with ⟨ps1, f1, cs1, s1, e1⟩
    have hps : ps1.getD j default = g.params.getD j default := by
      have h0 := loopParams_getD_of_none sq init fs cb g freeze scalss.head?
        g.params (ggl.headD []) j (by rw [headD_eq_getD_gl]; exact hg)
      rw [hr] at h0
      exact h0
    dsimp only
    rcases e1 with _ | e1 <;> dsimp only <;>
      simp only [List.getD_cons_zero] <;> exact hps
  | freeze, scalss, g :: gps, ggl, i + 1, j, hg => by
    unfold loopGroups
    rcases hr : loopParams sq init fs cb g freeze scalss.head? g.params
      (ggl.headD []) with ⟨ps1, f1, cs1, s1, e1⟩
    dsimp only
    rcases e1 with _ | e1
    · dsimp only
      simp only [List.getD_cons_succ]
      exact loopGroups_getD_of_none sq init fs cb f1 scalss.tail gps ggl.tail
        i j (by rw [tail_getD_gl, hg])
    · dsimp only
      simp only [List.getD_cons_succ]

/-- Main-loop version: a parameter with no effective gradient is unchanged
by the whole main loop. -/
theorem mainLoopStage_getD_of_none (sq : ℚ → ℚ) (o : Opt)
    (gs : List (List (Option GradIn))) (i j : ℕ)
    (hg : (gs.getD i []).getD j none = none) :
    ((mainLoopStage sq o gs).1.groups.getD i default).params.getD j default =
      (o.groups.getD i default).params.getD j default := by
  unfold mainLoopStage
  dsimp only
  exact loopGroups_getD_of_none sq o.initialized o.freeze_step o.coeff_beta
    o.lamb_freeze_key o.scaling_coeffs o.groups gs i j hg

/-- C10 (amended, warmup part): after the bootstrap, a successful warmup
step leaves a parameter whose effective gradient is absent entirely
untouched — data, state entry, counter, momenta all unchanged. -/
theorem C10_warmup_frame (sq : ℚ → ℚ)
    (ar : Vec → Vec → Vec → Vec × Vec × Vec) (o : Opt)
    (gs : List (List (Option GradIn))) (i j : ℕ) (o' : Opt) (log : StepLog)
    (hinit : o.initialized = true) (hfr : o.lamb_freeze_key = false)
    (hg : (gs.getD i []).getD j none = none)
    (h : step sq ar o gs = (o', log, none)) :
    (o'.groups.getD i default).params.getD j default =
      (o.groups.getD i default).params.getD j default := by
  obtain ⟨o1, ols, o2, lastStp, o3, o6, h1, h2, h3, h6, h7, -⟩ :=
    step_success_decomp sq ar o gs o' log h
  rw [scalingStage_of_not_freeze sq { o with lamb_coeffs := [] }
    (by exact hfr)] at h1
  obtain ⟨ho1, -⟩ := Prod.mk.injEq .. ▸ h1
  have e2 : o2 = (mainLoopStage sq o1 gs).1 := by rw [h2]
  have e3 : o3 = (fusedInitStage o2).1 := by rw [h3]
  have hfr2 : o2.lamb_freeze_key = false := by
    rw [e2, mainLoopStage_freeze_of_init sq o1 gs (by rw [← ho1]; exact hinit),
      ← ho1]
    exact hfr
  have hfr4 : (errorAllocStage o3).lamb_freeze_key = false := by
    rw [(errorAllocStage_frame o3).2.1, e3, (fusedInitStage_frame o2).2.1,
      hfr2]
  rw [allreduceStage_of_not_freeze ar (errorAllocStage o3) hfr4] at h6
  rw [updateLoopStage_of_skip sq ols (errorAllocStage o3) (Or.inl hfr4)] at h6
  obtain ⟨ho6, -⟩ := Prod.mk.injEq .. ▸ h6
  have e7 : o' = (finalizeStage o6 lastStp).1 := by rw [h7]
  rw [e7, (finalizeStage_frame o6 lastStp).1, ← ho6,
    (errorAllocStage_frame o3).1, e3, (fusedInitStage_frame o2).1, e2,
    mainLoopStage_getD_of_none sq o1 gs i j hg, ← ho1]

/-- Witness for C10 (amended) at the concrete warmup step `runC2b`, whose
second parameter has no gradient. -/
theorem C10_warmup_witness :
    (runC2b.1.groups.getD 0 default).params.getD 1 default =
      (runC2a.1.groups.getD 0 default).params.getD 1 default :=
  C10_warmup_frame sqLin arKeep runC2a.1 gradsAOnly 0 1 runC2b.1 runC2b.2.1
    (by decide) (by decide) (by decide) (by with_unfolding_all decide)

/-- During the bootstrap (`self.initialize` false), no parameter's data is
changed by the per-parameter loop body. -/
theorem stepParam_data_of_not_init (sq : ℚ → ℚ) (fs : ℕ) (cb : ℚ) (g : PGroup)
    (freeze : Bool) (scal : Option ℚ) (p : PParam) (gr : Option GradIn) :
    (stepParam sq false fs cb g freeze scal p gr).1.data = p.data := by
  unfold stepParam
  rcases gr with _ | gin
  · rfl
  · dsimp only
    by_cases hsp : gin.is_sparse = true
    · rw [if_pos hsp]
    · rw [if_neg hsp]
      rfl

/-- Loop version. -/
theorem loopParams_data_of_not_init (sq : ℚ → ℚ) (fs : ℕ) (cb : ℚ)
    (g : PGroup) :
    ∀ (freeze : Bool) (scals : Option (List ℚ)) (ps : List PParam)
      (gl : List (Option GradIn)),
      (loopParams sq false fs cb g freeze scals ps gl).1.map PParam.data =
        ps.map PParam.data
  | _, _, [], _ => rfl
  | freeze, scals, p :: ps, gl => by
    unfold loopParams
    have hd := stepParam_data_of_not_init sq fs cb g freeze
      (scals.bind List.head?) p (gl.headD none)
    rcases hr : stepParam sq false fs cb g freeze (scals.bind List.head?) p
      (gl.headD none) with ⟨p1, f1, cs1, s1, e1⟩
    rw [hr] at hd
    dsimp only at hd
    dsimp only
    rcases e1 with _ | e1
    · dsimp only
      simp only [List.map_cons, hd]
      rw [loopParams_data_of_not_init sq fs cb g f1 (scals.map List.tail) ps
        gl.tail]
    · simp only [List.map_cons, hd]

/-- Group-loop version. -/
theorem loopGroups_data_of_not_init (sq : ℚ → ℚ) (fs : ℕ) (cb : ℚ) :
    ∀ (freeze : Bool) (scalss : List (List ℚ)) (gps : List PGroup)
      (ggl : List (List (Option GradIn))),
      (loopGroups sq false fs cb freeze scalss gps ggl).1.map
        (fun g => g.params.map PParam.data) =
        gps.map (fun g => g.params.map PParam.data)
  | _, _, [], _ => rfl
  | freeze, scalss, g :: gps, ggl => by
    unfold loopGroups
    have hd := loopParams_data_of_not_init sq fs cb g freeze scalss.head?
      g.params (ggl.headD [])
    rcases hr : loopParams sq false fs cb g freeze scalss.head? g.params
      (ggl.headD []) with ⟨ps1, f1, cs1, s1, e1⟩
    rw [hr] at hd
    dsimp only at hd
    dsimp only
    rcases e1 with _ | e1
    · dsimp only
      simp only [List.map_cons, hd]
      rw [loopGroups_data_of_not_init sq fs cb f1 scalss.tail gps ggl.tail]
    · simp only [List.map_cons, hd]

/-- Main-loop version. -/
theorem mainLoopStage_data_of_not_init (sq : ℚ → ℚ) (o : Opt)
    (gs : List (List (Option GradIn))) (h : o.initialized = false) :
    (mainLoopStage sq o gs).1.groups.map (fun g => g.params.map PParam.data) =
      o.groups.map (fun g => g.params.map PParam.data) := by
  unfold mainLoopStage
  dsimp only
  rw [h]
  exact loopGroups_data_of_not_init sq o.freeze_step o.coeff_beta
    o.lamb_freeze_key o.scaling_coeffs o.groups gs

/-- Scattering the reduced buffer back only rewrites momenta, never data. -/
theorem scatterParams_data (flat : Vec) :
    ∀ (off : ℕ) (ps : List PParam),
      (scatterParams flat off ps).1.map PParam.data = ps.map PParam.data
  | _, [] => rfl
  | off, p :: ps => by
    unfold scatterParams
    rcases hst : p.st with _ | s <;> dsimp only <;>
      simp only [List.map_cons] <;>
        rw [scatterParams_data flat _ ps]

/-- Group version. -/
theorem scatterGroups_data (flat : Vec) :
    ∀ (off : ℕ) (gps : List PGroup),
      (scatterGroups flat off gps).1.map
        (fun g => g.params.map PParam.data) =
        gps.map (fun g => g.params.map PParam.data)
  | _, [] => rfl
  | off, g :: gps => by
    unfold scatterGroups
    dsimp only
    simp only [List.map_cons]
    rw [scatterParams_data flat off g.params,
      scatterGroups_data flat _ gps]

/-- Stage version. -/
theorem scatterStage_data (o : Opt) (flat : Vec) :
    (scatterStage o flat).groups.map (fun g => g.params.map PParam.data) =
      o.groups.map (fun g => g.params.map PParam.data) := by
  unfold scatterStage
  dsimp only
  exact scatterGroups_data flat 0 o.groups

/-- The all-reduce stage never changes parameter data. -/
theorem allreduceStage_data (ar : Vec → Vec → Vec → Vec × Vec × Vec) (o : Opt) :
    (allreduceStage ar o).1.groups.map (fun g => g.params.map PParam.data) =
      o.groups.map (fun g => g.params.map PParam.data) := by
  unfold allreduceStage
  by_cases h1 : o.lamb_freeze_key = true ∧ 1 < o.size
  · rw [if_pos h1]
    by_cases h2 : o.exp_avg_flat = []
    · rw [if_pos h2]
    · rw [if_neg h2]
      by_cases h3 : o.initialized = false
      · rw [if_pos h3]
        exact scatterStage_data _ _
      · rw [if_neg h3]
        exact scatterStage_data _ _
  · rw [if_neg h1]

/-- The all-reduce stage keeps the fused buffer nonempty. -/
theorem allreduceStage_flat_ne (ar : Vec → Vec → Vec → Vec × Vec × Vec)
    (o : Opt) (h : o.exp_avg_flat ≠ []) :
    (allreduceStage ar o).1.exp_avg_flat ≠ [] := by
  unfold allreduceStage
  by_cases h1 : o.lamb_freeze_key = true ∧ 1 < o.size
  · rw [if_pos h1]
    by_cases h2 : o.exp_avg_flat = []
    · rw [if_pos h2]
      exact h
    · rw [if_neg h2]
      by_cases h3 : o.initialized = false
      · rw [if_pos h3]
        simp [scatterStage]
      · rw [if_neg h3]
        simp [scatterStage]
  · rw [if_neg h1]
    exact h

/-- During the bootstrap the transient error buffers are popped again:
at the end of the stage both error lists are empty. -/
theorem allreduceStage_worker_of_not_init
    (ar : Vec → Vec → Vec → Vec × Vec × Vec) (o : Opt)
    (hi : o.initialized = false) (hw : o.worker_errors = [])
    (hs : o.server_errors = []) :
    (allreduceStage ar o).1.worker_errors = [] ∧
    (allreduceStage ar o).1.server_errors = [] := by
  unfold allreduceStage
  by_cases h1 : o.lamb_freeze_key = true ∧ 1 < o.size
  · rw [if_pos h1]
    by_cases h2 : o.exp_avg_flat = []
    · rw [if_pos h2]
      exact ⟨hw, hs⟩
    · rw [if_neg h2, if_pos hi]
      exact ⟨rfl, rfl⟩
  · rw [if_neg h1]
    exact ⟨hw, hs⟩

/-- The transient error-buffer allocation can only happen with more than
one worker. -/
theorem allreduceStage_log (ar : Vec → Vec → Vec → Vec × Vec × Vec) (o : Opt) :
    (allreduceStage ar o).2.tmpErrAlloc = true → 1 < o.size := by
  unfold allreduceStage
  by_cases h1 : o.lamb_freeze_key = true ∧ 1 < o.size
  · rw [if_pos h1]
    by_cases h2 : o.exp_avg_flat = []
    · rw [if_pos h2]
      intro hl
      simp at hl
    · rw [if_neg h2]
      by_cases h3 : o.initialized = false
      · rw [if_pos h3]
        intro _
        exact h1.2
      · rw [if_neg h3]
        intro hl
        simp at hl
  · rw [if_neg h1]
    intro hl
    simp at hl

/-- A successful first fusion leaves a nonempty fused buffer. -/
theorem fusedInitStage_flat_of_empty (o o' : Opt)
    (h : fusedInitStage o = (o', none)) (he : o.exp_avg_flat = []) :
    o'.exp_avg_flat ≠ [] := by
  unfold fusedInitStage at h
  rw [if_pos he] at h
  rcases hm : groupsMomenta o.groups with _ | mom <;> rw [hm] at h
  · obtain ⟨-, hcon⟩ := Prod.mk.injEq .. ▸ h
    exact absurd hcon.symm (by simp)
  · dsimp only at h
    split_ifs at h with h2 <;>
      (obtain ⟨ho', -⟩ := Prod.mk.injEq .. ▸ h; rw [← ho']; simp [he])

/-- C8 (amended): the bootstrap step changes no parameter data, allocates
the flat momentum buffer, commits to WARMUP (initialized true, phase flag
cleared), and does NOT leave error buffers allocated — any transient
allocation happens only with more than one worker and is popped before the
step ends. -/
theorem C8_bootstrap (sq : ℚ → ℚ) (ar : Vec → Vec → Vec → Vec × Vec × Vec)
    (o : Opt) (gs : List (List (Option GradIn))) (o' : Opt) (log : StepLog)
    (hinit : o.initialized = false)
    (hwe : o.worker_errors = []) (hse : o.server_errors = [])
    (h : step sq ar o gs = (o', log, none)) :
    o'.initialized = true ∧ o'.lamb_freeze_key = false ∧
    o'.groups.map (fun g => g.params.map PParam.data) =
      o.groups.map (fun g => g.params.map PParam.data) ∧
    (o.exp_avg_flat = [] → o'.exp_avg_flat ≠ []) ∧
    o'.worker_errors = [] ∧ o'.server_errors = [] ∧
    (log.tmpErrAlloc = true → 1 < o.size) := by
  obtain ⟨o1, ols, o2, lastStp, o3, o6, h1, h2, h3, h6, h7, hlog⟩ :=
    step_success_decomp sq ar o gs o' log h
  have e1 : o1 = (scalingStage sq { o with lamb_coeffs := [] }).1 := by
    rw [h1]
  have e2 : o2 = (mainLoopStage sq o1 gs).1 := by rw [h2]
  have e3 : o3 = (fusedInitStage o2).1 := by rw [h3]
  -- o1 facts
  have h1g : o1.groups = o.groups := by
    rw [e1, (scalingStage_frame sq _).1]
  have h1i : o1.initialized = false := by
    rw [e1, (scalingStage_frame sq _).2.2.1]
    exact hinit
  have h1w : o1.worker_errors = [] := by
    rw [e1, (scalingStage_frame sq _).2.2.2.2.2.1]
    exact hwe
  have h1s : o1.server_errors = [] := by
    rw [e1, (scalingStage_frame sq _).2.2.2.2.2.2.1]
    exact hse
  have h1f : o1.exp_avg_flat = o.exp_avg_flat := by
    rw [e1, (scalingStage_frame sq _).2.2.2.2.2.2.2.1]
  have h1z : o1.size = o.size := by
    rw [e1, (scalingStage_frame sq _).2.2.2.2.1]
  -- o2 facts
  have h2d : o2.groups.map (fun g => g.params.map PParam.data) =
      o.groups.map (fun g => g.params.map PParam.data) := by
    rw [e2, mainLoopStage_data_of_not_init sq o1 gs h1i, h1g]
  have h2i : o2.initialized = false := by
    rw [e2, (mainLoopStage_frame sq o1 gs).2.1, h1i]
  have h2w : o2.worker_errors = [] := by
    rw [e2, (mainLoopStage_frame sq o1 gs).2.2.2.2.1, h1w]
  have h2s : o2.server_errors = [] := by
    rw [e2, (mainLoopStage_frame sq o1 gs).2.2.2.2.2.1, h1s]
  have h2f : o2.exp_avg_flat = o.exp_avg_flat := by
    rw [e2, (mainLoopStage_frame sq o1 gs).2.2.2.2.2.2.1, h1f]
  have h2z : o2.size = o.size := by
    rw [e2, (mainLoopStage_frame sq o1 gs).2.2.2.1, h1z]
  -- o3 facts
  have h3d : o3.groups.map (fun g => g.params.map PParam.data) =
      o.groups.map (fun g => g.params.map PParam.data) := by
    rw [e3, (fusedInitStage_frame o2).1, h2d]
  have h3i : o3.initialized = false := by
    rw [e3, (fusedInitStage_frame o2).2.2.1, h2i]
  have h3w : o3.worker_errors = [] := by
    rw [e3, (fusedInitStage_frame o2).2.2.2.2.2.2.1, h2w]
  have h3s : o3.server_errors = [] := by
    rw [e3, (fusedInitStage_frame o2).2.2.2.2.2.2.2.1, h2s]
  have h3z : o3.size = o.size := by
    rw [e3, (fusedInitStage_frame o2).2.2.2.2.1, h2z]
  have h3f : o.exp_avg_flat = [] → o3.exp_avg_flat ≠ [] := by
    intro hfe
    exact fusedInitStage_flat_of_empty o2 o3 (by rw [h3]) (h2f.trans hfe)
  -- error allocation stage is the identity during the bootstrap
  have h4 : errorAllocStage o3 = o3 := errorAllocStage_of_not_init o3 h3i
  rw [h4] at h6 hlog
  -- all-reduce stage facts
  have h5d : (allreduceStage ar o3).1.groups.map
      (fun g => g.params.map PParam.data) =
      o.groups.map (fun g => g.params.map PParam.data) := by
    rw [allreduceStage_data ar o3, h3d]
  have h5i : (allreduceStage ar o3).1.initialized = false := by
    rw [(allreduceStage_frame ar o3).2.1, h3i]
  have h5w := allreduceStage_worker_of_not_init ar o3 h3i h3w h3s
  have h5f : o.exp_avg_flat = [] → (allreduceStage ar o3).1.exp_avg_flat ≠ [] :=
    fun hfe => allreduceStage_flat_ne ar o3 (h3f hfe)
  -- the update loop is skipped
  rw [updateLoopStage_of_skip sq ols (allreduceStage ar o3).1 (Or.inr h5i)]
    at h6
  obtain ⟨ho6, -⟩ := Prod.mk.injEq .. ▸ h6
  -- the bootstrap commit
  rw [finalizeStage_of_not_init o6 lastStp (by rw [← ho6]; exact h5i)] at h7
  obtain ⟨ho', -⟩ := Prod.mk.injEq .. ▸ h7
  rw [← ho']
  refine ⟨rfl, rfl, ?_, ?_, ?_, ?_, ?_⟩
  · show o6.groups.map (fun g => g.params.map PParam.data) = _
    rw [← ho6]
    exact h5d
  · intro hfe
    show o6.exp_avg_flat ≠ []
    rw [← ho6]
    exact h5f hfe
  · show o6.worker_errors = []
    rw [← ho6]
    exact h5w.1
  · show o6.server_errors = []
    rw [← ho6]
    exact h5w.2
  · rw [hlog]
    intro hl
    have := allreduceStage_log ar o3 hl
    rw [h3z] at this
    exact this

/-- Witness for C8 (amended) at the concrete bootstrap step `runC8`. -/
theorem C8_bootstrap_witness :
    runC8.1.initialized = true ∧ runC8.1.lamb_freeze_key = false ∧
    runC8.1.groups.map (fun g => g.params.map PParam.data) =
      (optBase 100).groups.map (fun g => g.params.map PParam.data) ∧
    ((optBase 100).exp_avg_flat = [] → runC8.1.exp_avg_flat ≠ []) ∧
    runC8.1.worker_errors = [] ∧ runC8.1.server_errors = [] ∧
    (runC8.2.1.tmpErrAlloc = true → 1 < (optBase 100).size) :=
  C8_bootstrap sqLin arKeep (optBase 100) gradsBoth runC8.1 runC8.2.1
    (by decide) (by decide) (by decide) (by with_unfolding_all decide)

/-- A sparse gradient makes the loop body raise before touching the
parameter (the `is_sparse` check precedes the state access). -/
theorem stepParam_sparse (sq : ℚ → ℚ) (init : Bool) (fs : ℕ) (cb : ℚ)
    (g : PGroup) (freeze : Bool) (scal : Option ℚ) (p : PParam) (gin : GradIn)
    (hsp : gin.is_sparse = true) :
    stepParam sq init fs cb g freeze scal p (some gin) =
      (p, freeze, [], none, some StepErr.sparseGrad) := by
  unfold stepParam
  dsimp only
  rw [if_pos hsp]

/-- A warmup step body raises no error when the gradient is absent or
dense. -/
theorem stepParam_warmup_no_err (sq : ℚ → ℚ) (fs : ℕ) (cb : ℚ) (g : PGroup)
    (scal : Option ℚ) (p : PParam) (gr : Option GradIn)
    (hg : ∀ gin, gr = some gin → gin.is_sparse = false) :
    (stepParam sq true fs cb g false scal p gr).2.2.2.2 = none := by
  unfold stepParam
  rcases gr with _ | gin
  · rfl
  · dsimp only
    rw [if_neg (by simp [hg gin rfl])]
    rfl

/-- A warmup pass over a parameter list with no sparse gradient raises no
error. -/
theorem loopParams_warmup_no_err (sq : ℚ → ℚ) (fs : ℕ) (cb : ℚ) (g : PGroup) :
    ∀ (scals : Option (List ℚ)) (ps : List PParam)
      (gl : List (Option GradIn)),
      (∀ (j : ℕ) (g' : GradIn), gl.getD j none = some g' →
        g'.is_sparse = false) →
      (loopParams sq true fs cb g false scals ps gl).2.2.2.2 = none
  | _, [], _, _ => rfl
  | scals, p :: ps, gl, hall => by
    unfold loopParams
    have herr := stepParam_warmup_no_err sq fs cb g (scals.bind List.head?) p
      (gl.headD none) (fun gin hgin => hall 0 gin (by rw [← headD_eq_getD]; exact hgin))
    have hfz := stepParam_freeze_of_init sq fs cb g false
      (scals.bind List.head?) p (gl.headD none)
    rcases hr : stepParam sq true fs cb g false (scals.bind List.head?) p
      (gl.headD none) with ⟨p1, f1, cs1, s1, e1⟩
    rw [hr] at herr hfz
    dsimp only at herr hfz
    subst herr
    subst hfz
    dsimp only
    exact loopParams_warmup_no_err sq fs cb g (scals.map List.tail) ps gl.tail
      (fun j g' hj => hall (j + 1) g' (by rw [← tail_getD]; exact hj))

/-- The inner loop on the group containing the first sparse gradient:
the error is raised there, and every parameter from the sparse one on is
returned unchanged. -/
theorem loopParams_sparse (sq : ℚ → ℚ) (fs : ℕ) (cb : ℚ) (g : PGroup) :
    ∀ (scals : Option (List ℚ)) (ps : List PParam)
      (gl : List (Option GradIn)) (j : ℕ) (gin : GradIn),
      gl.getD j none = some gin → gin.is_sparse = true →
      (∀ (j' : ℕ) (g' : GradIn), j' < j → gl.getD j' none = some g' →
        g'.is_sparse = false) →
      (loopParams sq true fs cb g false scals ps gl).2.2.2.2 =
        some StepErr.sparseGrad ∨ ps.length ≤ j
  | _, [], _, j, _, _, _, _ => Or.inr (by simp)
  | scals, p :: ps, gl, 0, gin, hg, hsp, _ => by
    left
    unfold loopParams
    have hstep : stepParam sq true fs cb g false (scals.bind List.head?) p
        (gl.headD none) = (p, false, [], none, some StepErr.sparseGrad) := by
      rw [headD_eq_getD, hg]
      exact stepParam_sparse sq true fs cb g false (scals.bind List.head?)
        p gin hsp
    rw [hstep]
  | scals, p :: ps, gl, j + 1, gin, hg, hsp, hfirst => by
    unfold loopParams
    have herr := stepParam_warmup_no_err sq fs cb g (scals.bind List.head?) p
      (gl.headD none) (fun g' hg' => hfirst 0 g' (Nat.succ_pos j)
        (by rw [← headD_eq_getD]; exact hg'))
    have hfz := stepParam_freeze_of_init sq fs cb g false
      (scals.bind List.head?) p (gl.headD none)
    rcases hr : stepParam sq true fs cb g false (scals.bind List.head?) p
      (gl.headD none) with ⟨p1, f1, cs1, s1, e1⟩
    rw [hr] at herr hfz
    dsimp only at herr hfz
    subst herr
    subst hfz
    dsimp only
    rcases loopParams_sparse sq fs cb g (scals.map List.tail) ps gl.tail j gin
      (by rw [tail_getD]; exact hg) hsp
      (fun j' g' hj' hg' => hfirst (j' + 1) g' (by omega)
        (by rw [← tail_getD]; exact hg')) with hres | hres
    · exact Or.inl hres
    · exact Or.inr (by simpa using Nat.succ_le_succ hres)

/-- The drop-suffix of the parameter list is unchanged from the first
sparse position on. -/
theorem loopParams_sparse_drop (sq : ℚ → ℚ) (fs : ℕ) (cb : ℚ) (g : PGroup) :
    ∀ (scals : Option (List ℚ)) (ps : List PParam)
      (gl : List (Option GradIn)) (j : ℕ) (gin : GradIn),
      gl.getD j none = some gin → gin.is_sparse = true →
      (∀ (j' : ℕ) (g' : GradIn), j' < j → gl.getD j' none = some g' →
        g'.is_sparse = false) →
      (loopParams sq true fs cb g false scals ps gl).1.drop j = ps.drop j
  | _, [], _, j, _, _, _, _ => by simp [loopParams]
  | scals, p :: ps, gl, 0, gin, hg, hsp, _ => by
    unfold loopParams
    have hstep : stepParam sq true fs cb g false (scals.bind List.head?) p
        (gl.headD none) = (p, false, [], none, some StepErr.sparseGrad) := by
      rw [headD_eq_getD, hg]
      exact stepParam_sparse sq true fs cb g false (scals.bind List.head?)
        p gin hsp
    rw [hstep]
  | scals, p :: ps, gl, j + 1, gin, hg, hsp, hfirst => by
    unfold loopParams
    have herr := stepParam_warmup_no_err sq fs cb g (scals.bind List.head?) p
      (gl.headD none) (fun g' hg' => hfirst 0 g' (Nat.succ_pos j)
        (by rw [← headD_eq_getD]; exact hg'))
    have hfz := stepParam_freeze_of_init sq fs cb g false
      (scals.bind List.head?) p (gl.headD none)
    rcases hr : stepParam sq true fs cb g false (scals.bind List.head?) p
      (gl.headD none) with ⟨p1, f1, cs1, s1, e1⟩
    rw [hr] at herr hfz
    dsimp only at herr hfz
    subst herr
    subst hfz
    dsimp only
    simp only [List.drop_succ_cons]
    exact loopParams_sparse_drop sq fs cb g (scals.map List.tail) ps
      gl.tail j gin (by rw [tail_getD]; exact hg) hsp
      (fun j' g' hj' hg' => hfirst (j' + 1) g' (by omega)
        (by rw [← tail_getD]; exact hg'))

/-- The outer loop at the first sparse gradient, sitting at position
`(i, j)`: the error is raised, the sparse parameter and the rest of its
group are unchanged, and all later groups are unchanged. -/
theorem loopGroups_sparse (sq : ℚ → ℚ) (fs : ℕ) (cb : ℚ) :
    ∀ (scalss : List (List ℚ)) (gps : List PGroup)
      (ggl : List (List (Option GradIn))) (i j : ℕ) (gin : GradIn),
      i < gps.length → j < (gps.getD i default).params.length →
      (ggl.getD i []).getD j none = some gin → gin.is_sparse = true →
      (∀ (i' j' : ℕ) (g' : GradIn), (i' < i ∨ (i' = i ∧ j' < j)) →
        (ggl.getD i' []).getD j' none = some g' → g'.is_sparse = false) →
      (loopGroups sq true fs cb false scalss gps ggl).2.2.2.2 =
          some StepErr.sparseGrad ∧
        ((loopGroups sq true fs cb false scalss gps ggl).1.getD i
            default).params.drop j = (gps.getD i default).params.drop j ∧
        (loopGroups sq true fs cb false scalss gps ggl).1.drop (i + 1) =
          gps.drop (i + 1)
  | _, [], _, i, _, _, hi, _, _, _, _ => absurd hi (by simp)
  | scalss, g :: gps, ggl, 0, j, gin, _, hj, hg, hsp, hfirst => by
    unfold loopGroups
    have hg0 : (ggl.headD []).getD j none = some gin := by
      rw [headD_eq_getD_gl]; exact hg
    have hfirst0 : ∀ (j' : ℕ) (g' : GradIn), j' < j →
        (ggl.headD []).getD j' none = some g' → g'.is_sparse = false := by
      intro j' g' hj' hg'
      exact hfirst 0 j' g' (Or.inr ⟨rfl, hj'⟩)
        (by rw [← headD_eq_getD_gl]; exact hg')
    have herr := loopParams_sparse sq fs cb g scalss.head? g.params
      (ggl.headD []) j gin hg0 hsp hfirst0
    have hdrop := loopParams_sparse_drop sq fs cb g scalss.head? g.params
      (ggl.headD []) j gin hg0 hsp hfirst0
    have hlen : j < g.params.length := by
      simpa using hj
    rcases hr : loopParams sq true fs cb g false scalss.head? g.params
      (ggl.headD []) with ⟨ps1, f1, cs1, s1, e1⟩
    rw [hr] at herr hdrop
    dsimp only at herr hdrop
    have he1 : e1 = some StepErr.sparseGrad := by
      rcases herr with h | h
      · exact h
      · omega
    subst he1
    dsimp only
    refine ⟨rfl, ?_, rfl⟩
    simp only [List.getD_cons_zero]
    exact hdrop
  | scalss, g :: gps, ggl, i + 1, j, gin, hi, hj, hg, hsp, hfirst => by
    unfold loopGroups
    have herr := loopParams_warmup_no_err sq fs cb g scalss.head? g.params
      (ggl.headD [])
      (fun j' g' hg' => hfirst 0 j' g' (Or.inl (Nat.succ_pos i))
        (by rw [← headD_eq_getD_gl]; exact hg'))
    have hfz := loopParams_freeze_of_init sq fs cb g false scalss.head?
      g.params (ggl.headD [])
    rcases hr : loopParams sq true fs cb g false scalss.head? g.params
      (ggl.headD []) with ⟨ps1, f1, cs1, s1, e1⟩
    rw [hr] at herr hfz
    dsimp only at herr hfz
    subst herr
    subst hfz
    dsimp only
    have ih := loopGroups_sparse sq fs cb scalss.tail gps ggl.tail i j gin
      (by simpa using hi) (by simpa using hj)
      (by rw [tail_getD_gl]; exact hg) hsp
      (fun i' j' g' hcond hg' => hfirst (i' + 1) j' g'
        (by
          rcases hcond with h | ⟨h, h'⟩
          · exact Or.inl (by omega)
          · exact Or.inr ⟨by omega, h'⟩)
        (by rw [← tail_getD_gl]; exact hg'))
    refine ⟨ih.1, ?_, ?_⟩
    · simp only [List.getD_cons_succ]
      exact ih.2.1
    · simp only [List.drop_succ_cons]
      exact ih.2.2

/-- `mainLoopStage` on a warmup step whose first sparse gradient sits at
position `(i, j)`. -/
theorem mainLoopStage_sparse (sq : ℚ → ℚ) (o : Opt)
    (gs : List (List (Option GradIn))) (i j : ℕ) (gin : GradIn)
    (hinit : o.initialized = true) (hfr : o.lamb_freeze_key = false)
    (hi : i < o.groups.length)
    (hj : j < (o.groups.getD i default).params.length)
    (hg : (gs.getD i []).getD j none = some gin) (hsp : gin.is_sparse = true)
    (hfirst : ∀ (i' j' : ℕ) (g' : GradIn), (i' < i ∨ (i' = i ∧ j' < j)) →
      (gs.getD i' []).getD j' none = some g' → g'.is_sparse = false) :
    (mainLoopStage sq o gs).2.2 = some StepErr.sparseGrad ∧
      ((mainLoopStage sq o gs).1.groups.getD i default).params.drop j =
        (o.groups.getD i default).params.drop j ∧
      (mainLoopStage sq o gs).1.groups.drop (i + 1) =
        o.groups.drop (i + 1) := by
  unfold mainLoopStage
  dsimp only
  rw [hinit, hfr]
  exact loopGroups_sparse sq o.freeze_step o.coeff_beta o.scaling_coeffs
    o.groups gs i j gin hi hj hg hsp hfirst

/-- C3: a sparse gradient makes `step` raise the fatal
`RuntimeError` when its parameter is reached: the step returns with the
sparse-gradient error, and the sparse parameter itself together with
every later parameter of its group and every later group is unchanged
(parameters processed earlier in the same call have already been
mutated, as the counterexample shows). -/
theorem C3_sparse_abort (sq : ℚ → ℚ)
    (ar : Vec → Vec → Vec → Vec × Vec × Vec) (o : Opt)
    (gs : List (List (Option GradIn))) (i j : ℕ) (gin : GradIn)
    (hinit : o.initialized = true) (hfr : o.lamb_freeze_key = false)
    (hi : i < o.groups.length)
    (hj : j < (o.groups.getD i default).params.length)
    (hg : (gs.getD i []).getD j none = some gin) (hsp : gin.is_sparse = true)
    (hfirst : ∀ (i' j' : ℕ) (g' : GradIn), (i' < i ∨ (i' = i ∧ j' < j)) →
      (gs.getD i' []).getD j' none = some g' → g'.is_sparse = false) :
    (step sq ar o gs).2.2 = some StepErr.sparseGrad ∧
      ((step sq ar o gs).1.groups.getD i default).params.drop j =
        (o.groups.getD i default).params.drop j ∧
      (step sq ar o gs).1.groups.drop (i + 1) = o.groups.drop (i + 1) := by
  unfold step
  dsimp only
  rw [scalingStage_of_not_freeze sq { o with lamb_coeffs := [] } hfr]
  dsimp only
  have hm := mainLoopStage_sparse sq { o with lamb_coeffs := [] } gs i j gin
    hinit hfr hi hj hg hsp hfirst
  rcases hr : mainLoopStage sq { o with lamb_coeffs := [] } gs with
    ⟨o2, lastStp, e2⟩
  rw [hr] at hm
  dsimp only at hm
  rcases hm with ⟨he, hd1, hd2⟩
  subst he
  dsimp only
  exact ⟨rfl, hd1, hd2⟩

/-- Witness for C3 at a concrete warmup optimizer where the second
parameter's gradient is sparse. -/
theorem C3_sparse_witness :
    (step sqLin arKeep optWarm gradsSparse).2.2 = some StepErr.sparseGrad ∧
      ((step sqLin arKeep optWarm gradsSparse).1.groups.getD 0
          default).params.drop 1 =
        (optWarm.groups.getD 0 default).params.drop 1 ∧
      (step sqLin arKeep optWarm gradsSparse).1.groups.drop 1 =
        optWarm.groups.drop 1 :=
  C3_sparse_abort sqLin arKeep optWarm gradsSparse 0 1 ⟨[1], true⟩
    (by with_unfolding_all decide) (by with_unfolding_all decide)
    (by with_unfolding_all decide) (by with_unfolding_all decide)
    (by with_unfolding_all decide) (by with_unfolding_all decide)
    (by
      intro i' j' g' hcond hg'
      rcases hcond with h | ⟨hi0, hj0⟩
      · omega
      · subst hi0
        have hj0' : j' = 0 := by omega
        subst hj0'
        simp only [gradsSparse, List.getD_cons_zero] at hg'
        injection hg' with h2
        rw [← h2])

/-- Rebinding each parameter's state positionally from its own saved
state list is the identity. -/
theorem mapIdx_st_self : ∀ (ps : List PParam),
    ps.mapIdx (fun j p => { p with st := (ps.map PParam.st).getD j none }) = ps
  | [] => rfl
  | p :: ps => by
    simp only [List.map_cons, List.mapIdx_cons, List.getD_cons_zero,
      List.getD_cons_succ]
    congr 1
    exact mapIdx_st_self ps

/-- The base load with a group's own saved states leaves its parameter
list unchanged (only the options are replaced). -/
theorem baseLoadGroup_self_params (g : PGroup) (m : Option Vec) :
    (baseLoadGroup g (g.params.map PParam.st) m).params = g.params := by
  unfold baseLoadGroup
  dsimp only
  exact mapIdx_st_self g.params

/-- After `resetFreezeFields`, every surviving state entry has
`lamb_coeff_freeze = 0` and `last_factor = 1`. -/
theorem resetFreezeFields_spec (gs : List PGroup) :
    ∀ g ∈ resetFreezeFields gs, ∀ p ∈ g.params, ∀ s, p.st = some s →
      s.lamb_coeff_freeze = 0 ∧ s.last_factor = 1 := by
  intro g hgm p hpm s hs
  unfold resetFreezeFields at hgm
  obtain ⟨g', hg', rfl⟩ := List.mem_map.mp hgm
  dsimp only at hpm
  obtain ⟨p', hp', rfl⟩ := List.mem_map.mp hpm
  rcases hst' : p'.st with _ | s'
  · rw [hst'] at hs
    dsimp only at hs
    rw [hst'] at hs
    exact Option.noConfusion hs
  · rw [hst'] at hs
    dsimp only at hs
    injection hs with h2
    rw [← h2]
    exact ⟨rfl, rfl⟩

/-- C7 (amended): saving and immediately reloading the optimizer's own
checkpoint succeeds; when the first parameter's counter has reached
`freeze_step` the error buffers and scaling coefficients are restored
exactly as saved but the phase flag is left as it was (COMPRESSION only
if it already was); when the counter is below `freeze_step` the
optimizer is put in WARMUP: the phase flag is false, the error buffers
and scaling coefficients are cleared, every state's `lamb_coeff_freeze`
is reset to 0 and `last_factor` to 1, and the raw-gradient all-reduce is
enabled iff it was enabled or the phase flag was set. -/
theorem C7_checkpoint_roundtrip (o : Opt) (g0 : PGroup) (grest : List PGroup)
    (p0 : PParam) (prest : List PParam) (s0 : ParamState)
    (hg : o.groups = g0 :: grest) (hp : g0.params = p0 :: prest)
    (hst : p0.st = some s0) :
    (load_state_dict o (state_dict o)).2 = none ∧
      (o.freeze_step ≤ s0.step →
        (load_state_dict o (state_dict o)).1.worker_errors =
            o.worker_errors ∧
          (load_state_dict o (state_dict o)).1.server_errors =
            o.server_errors ∧
          (load_state_dict o (state_dict o)).1.scaling_coeffs =
            o.scaling_coeffs ∧
          (load_state_dict o (state_dict o)).1.lamb_freeze_key =
            o.lamb_freeze_key) ∧
      (s0.step < o.freeze_step →
        (load_state_dict o (state_dict o)).1.lamb_freeze_key = false ∧
          (load_state_dict o (state_dict o)).1.worker_errors = [] ∧
          (load_state_dict o (state_dict o)).1.server_errors = [] ∧
          (load_state_dict o (state_dict o)).1.scaling_coeffs = [] ∧
          (∀ g ∈ (load_state_dict o (state_dict o)).1.groups,
            ∀ p ∈ g.params, ∀ s, p.st = some s →
              s.lamb_coeff_freeze = 0 ∧ s.last_factor = 1) ∧
          (load_state_dict o (state_dict o)).1.enable_backward_allreduce =
            (o.enable_backward_allreduce || o.lamb_freeze_key)) := by
  unfold load_state_dict state_dict
  dsimp only
  rw [hg]
  simp only [List.map_cons, baseLoadGroups, List.headD_cons, List.tail_cons,
    List.zipWith_cons_cons]
  rcases hmask : g0.exp_avg_mask with _ | mv
  all_goals
    dsimp only
    rw [baseLoadGroup_self_params, hp]
    dsimp only
    rw [hst]
    dsimp only
    by_cases hfs : o.freeze_step ≤ s0.step
  · rw [if_pos hfs]
    refine ⟨rfl, fun _ => ⟨rfl, rfl, rfl, rfl⟩, fun h => ?_⟩
    omega
  · rw [if_neg hfs]
    refine ⟨rfl, fun h => ?_, fun _ => ?_⟩
    · omega
    · by_cases hl : o.lamb_freeze_key = true
      · rw [if_pos hl]
        refine ⟨rfl, rfl, rfl, rfl, resetFreezeFields_spec _, ?_⟩
        rw [hl, Bool.or_true]
      · rw [if_neg hl]
        rw [Bool.not_eq_true] at hl
        refine ⟨hl, rfl, rfl, rfl, resetFreezeFields_spec _, ?_⟩
        rw [hl, Bool.or_false]
  · rw [if_pos hfs]
    refine ⟨rfl, fun _ => ⟨rfl, rfl, rfl, rfl⟩, fun h => ?_⟩
    omega
  · rw [if_neg hfs]
    refine ⟨rfl, fun h => ?_, fun _ => ?_⟩
    · omega
    · by_cases hl : o.lamb_freeze_key = true
      · rw [if_pos hl]
        refine ⟨rfl, rfl, rfl, rfl, resetFreezeFields_spec _, ?_⟩
        rw [hl, Bool.or_true]
      · rw [if_neg hl]
        rw [Bool.not_eq_true] at hl
        refine ⟨hl, rfl, rfl, rfl, resetFreezeFields_spec _, ?_⟩
        rw [hl, Bool.or_false]

/-- A compression-phase optimizer used to witness the checkpoint
round-trip: counter 5 has passed `freeze_step = 3`. -/
def stC7 : ParamState :=
  { step := 5, lamb_coeff_freeze := 3/4, last_factor := 2,
    exp_avg := [1/2], exp_avg_sq := [1/3], exp_avg_sq_back := [1/4] }

def pC7 : PParam := { data := [2], st := some stC7 }

def gC7 : PGroup := { groupW with params := [pC7] }

def optC7 : Opt :=
  { optBase 3 with
      groups := [gC7],
      lamb_freeze_key := true,
      initialized := true,
      worker_errors := [[1]],
      server_errors := [[2]],
      scaling_coeffs := [[1]] }

/-- Witness for C7 at a concrete compression-phase optimizer. -/
theorem C7_checkpoint_witness :
    (load_state_dict optC7 (state_dict optC7)).2 = none ∧
      (optC7.freeze_step ≤ stC7.step →
        (load_state_dict optC7 (state_dict optC7)).1.worker_errors =
            optC7.worker_errors ∧
          (load_state_dict optC7 (state_dict optC7)).1.server_errors =
            optC7.server_errors ∧
          (load_state_dict optC7 (state_dict optC7)).1.scaling_coeffs =
            optC7.scaling_coeffs ∧
          (load_state_dict optC7 (state_dict optC7)).1.lamb_freeze_key =
            optC7.lamb_freeze_key) ∧
      (stC7.step < optC7.freeze_step →
        (load_state_dict optC7 (state_dict optC7)).1.lamb_freeze_key =
            false ∧
          (load_state_dict optC7 (state_dict optC7)).1.worker_errors = [] ∧
          (load_state_dict optC7 (state_dict optC7)).1.server_errors = [] ∧
          (load_state_dict optC7 (state_dict optC7)).1.scaling_coeffs =
            [] ∧
          (∀ g ∈ (load_state_dict optC7 (state_dict optC7)).1.groups,
            ∀ p ∈ g.params, ∀ s, p.st = some s →
              s.lamb_coeff_freeze = 0 ∧ s.last_factor = 1) ∧
          (load_state_dict optC7 (state_dict optC7)).1.enable_backward_allreduce =
            (optC7.enable_backward_allreduce || optC7.lamb_freeze_key)) :=
  C7_checkpoint_roundtrip optC7 gC7 [] pC7 [] stC7 rfl rfl rfl

end OnebitLamb

